import Mathlib

/-!
# Mapty: the workout log of `script.js`

A shallow embedding of the workout model (`Workout`, `Running`, `Cycling`) and of the
controller `App` of `src/script.js`, followed by theorems about creation, validation,
placement and persistence.

Modelling conventions.

* A JavaScript number is a `JSNum`: `NaN`, the two infinities, or a finite value, given
  by the rational it denotes.  Division is the binary64 division of IEEE 754: the exact
  quotient rounded to the nearest binary64 value, ties to even, with overflow to
  `Infinity` and gradual underflow to zero (`JSNum.ofRat`).  The sign of zero is not
  modelled; it plays no part where every operand is positive.
* A JavaScript value is a `JSVal`.  Objects are lists of own data properties in insertion
  order; prototypes and methods are not part of a value.
* The text kept by `localStorage` under the key `workouts` is a `StoredString`: either a
  well-formed JSON text, represented by the document tree `Json` it denotes, or some
  other text.  `JSON.stringify` and `JSON.parse` are the platform functions of
  ECMA-262 at the level of that tree; a number in the tree is the binary64 value its
  text is read as.
* The DOM form is a `Form`; each numeric input is represented by the number that unary
  plus reads from its text (the empty text reads as `0`).
* Leaflet, geolocation and HTML rendering are outside the model; calls into them are
  recorded as `Effect`s.
-/

namespace Mapty

/-! ## Numbers -/

/-- A JavaScript number. -/
inductive JSNum where
  | nan
  | posInf
  | negInf
  | fin (q : ℚ)
  deriving DecidableEq

namespace JSNum

/-- The platform function `Number.isFinite` on a number. -/
def isFinite : JSNum → Bool
  | fin _ => true
  | _ => false

/-- The comparison `a > b` of JavaScript. -/
def gt : JSNum → JSNum → Bool
  | nan, _ => false
  | _, nan => false
  | posInf, posInf => false
  | posInf, _ => true
  | negInf, _ => false
  | fin _, posInf => false
  | fin _, negInf => true
  | fin a, fin b => decide (b < a)

/-- The integer nearest to `m`; of two equally near integers, the even one. -/
def roundHalfEven (m : ℚ) : ℤ :=
  if m - ⌊m⌋ < 1 / 2 then ⌊m⌋
  else if 1 / 2 < m - ⌊m⌋ then ⌊m⌋ + 1
  else if ⌊m⌋ % 2 = 0 then ⌊m⌋
  else ⌊m⌋ + 1

/-- The exponent of the spacing of binary64 values around a positive `q`: 52 binary places
below the leading bit, and never below that of the least subnormal, 2^-1074. -/
def ulpExp (q : ℚ) : ℤ := max (Int.log 2 q - 52) (-1074)

/-- The binary64 value nearest to a positive rational, `Infinity` when it would reach
2^1024. -/
def roundPos (q : ℚ) : JSNum :=
  let r : ℚ := (roundHalfEven (q / 2 ^ ulpExp q) : ℚ) * 2 ^ ulpExp q
  if r < 2 ^ (1024 : ℤ) then fin r else posInf

/-- The negation `-a` of JavaScript. -/
def neg : JSNum → JSNum
  | nan => nan
  | posInf => negInf
  | negInf => posInf
  | fin q => fin (-q)

/-- The binary64 value an exact result is rounded to. -/
def ofRat (q : ℚ) : JSNum :=
  if q = 0 then fin 0 else if 0 < q then roundPos q else neg (roundPos (-q))

/-- The division `a / b` of JavaScript. -/
def div : JSNum → JSNum → JSNum
  | nan, _ => nan
  | _, nan => nan
  | fin a, fin b =>
    if b = 0 then (if a = 0 then nan else if 0 < a then posInf else negInf)
    else ofRat (a / b)
  | fin _, _ => fin 0
  | posInf, fin b => if b < 0 then negInf else posInf
  | negInf, fin b => if b < 0 then posInf else negInf
  | _, _ => nan

end JSNum

/-! ## Values, JSON documents, stored text -/

/-- A JavaScript value. -/
inductive JSVal where
  | undefined
  | null
  | bool (b : Bool)
  | num (n : JSNum)
  | str (s : String)
  | date (t : Nat)
  | arr (items : List JSVal)
  | obj (props : List (String × JSVal))

/-- The document tree of a well-formed JSON text. -/
inductive Json where
  | null
  | bool (b : Bool)
  | num (q : ℚ)
  | str (s : String)
  | arr (items : List Json)
  | obj (members : List (String × Json))

/-- The text held by `localStorage` under one key. -/
inductive StoredString where
  | jsonText (doc : Json)
  | otherText (text : String)

/-- Errors thrown by the platform. -/
inductive JSError where
  | SyntaxError
  | TypeError
  deriving DecidableEq

namespace JSVal

/-- Own-property read `v[key]` on a value that is neither `undefined` nor `null`. -/
def get : JSVal → String → JSVal
  | obj props, key => (props.lookup key).getD undefined
  | _, _ => undefined

/-- Assignment `o[key] = v` on a property list: an existing key keeps its place. -/
def setProp : List (String × JSVal) → String → JSVal → List (String × JSVal)
  | [], key, v => [(key, v)]
  | (k, w) :: rest, key, v =>
    if k = key then (k, v) :: rest else (k, w) :: setProp rest key v

/-- The values on which a property read throws. -/
def isNullish : JSVal → Bool
  | undefined => true
  | null => true
  | _ => false

/-- The conversion `ToBoolean`. -/
def truthy : JSVal → Bool
  | undefined => false
  | null => false
  | bool b => b
  | num JSNum.nan => false
  | num (JSNum.fin q) => decide (q ≠ 0)
  | num _ => true
  | str s => decide (s ≠ "")
  | _ => true

/-- Strict equality `v === s` against a string. -/
def isStr : JSVal → String → Bool
  | str t, s => decide (t = s)
  | _, _ => false

/-- Strict equality `v === n` against a number. -/
def isNum : JSVal → JSNum → Bool
  | num JSNum.nan, _ => false
  | num m, n => decide (m = n)
  | _, _ => false

end JSVal

/-! ## Dates -/

/-- The month-name table of the source. -/
def months : List String :=
  ["January", "February", "March", "April", "May", "June", "July", "August",
   "September", "October", "November", "December"]

namespace Date

/-- Milliseconds per day. -/
def msPerDay : Int := 86400000

/-- Year, zero-based month and day of month of the day that lies `z` days after
1970-01-01 in the proleptic Gregorian calendar. -/
def civil (z : Int) : Int × Nat × Nat :=
  let z := z + 719468
  let era := z / 146097
  let doe := z - era * 146097
  let yoe := (doe - doe / 1460 + doe / 36524 - doe / 146096) / 365
  let doy := doe - (365 * yoe + yoe / 4 - yoe / 100)
  let mp := (5 * doy + 2) / 153
  let d := doy - (153 * mp + 2) / 5 + 1
  let m := if mp < 10 then mp + 3 else mp - 9
  let y := yoe + era * 400 + (if m ≤ 2 then 1 else 0)
  (y, (m - 1).toNat, d.toNat)

/-- Local time value of the instant `t`, for a zone `tz` minutes ahead of UTC. -/
def localTime (t : Nat) (tz : Int) : Int := (t : Int) + tz * 60000

/-- The method `getMonth` of a date with time value `t`. -/
def getMonth (t : Nat) (tz : Int) : Nat := (civil (localTime t tz / msPerDay)).2.1

/-- The method `getDate` of a date with time value `t`. -/
def getDate (t : Nat) (tz : Int) : Nat := (civil (localTime t tz / msPerDay)).2.2

/-- Decimal text of `n`, padded with zeros on the left to `width` characters. -/
def pad (width n : Nat) : String :=
  let s := toString n
  String.mk (List.replicate (width - s.length) '0') ++ s

/-- The method `toISOString` (and so `toJSON`) of a date with time value `t`. -/
def toISOString (t : Nat) : String :=
  let days := (t : Int) / msPerDay
  let ms := (t % 86400000 : Nat)
  let ymd := civil days
  let year := if ymd.1 ≤ 9999 then pad 4 ymd.1.toNat else "+" ++ pad 6 ymd.1.toNat
  year ++ "-" ++ pad 2 (ymd.2.1 + 1) ++ "-" ++ pad 2 ymd.2.2 ++ "T"
    ++ pad 2 (ms / 3600000) ++ ":" ++ pad 2 (ms / 60000 % 60) ++ ":"
    ++ pad 2 (ms / 1000 % 60) ++ "." ++ pad 3 (ms % 1000) ++ "Z"

end Date

/-! ## JSON -/

namespace JSON

mutual
/-- The abstract operation `SerializeJSONProperty`: `none` stands for `undefined`. -/
def serialize : JSVal → Option Json
  | JSVal.undefined => none
  | JSVal.null => some Json.null
  | JSVal.bool b => some (Json.bool b)
  | JSVal.num (JSNum.fin q) => some (Json.num q)
  | JSVal.num _ => some Json.null
  | JSVal.str s => some (Json.str s)
  | JSVal.date t => some (Json.str (Date.toISOString t))
  | JSVal.arr items => some (Json.arr (serializeItems items))
  | JSVal.obj props => some (Json.obj (serializeProps props))
/-- Elements of an array: `undefined` is written as `null`. -/
def serializeItems : List JSVal → List Json
  | [] => []
  | v :: vs => (serialize v).getD Json.null :: serializeItems vs
/-- Members of an object: a property whose value is `undefined` is left out. -/
def serializeProps : List (String × JSVal) → List (String × Json)
  | [] => []
  | (k, v) :: ps =>
    match serialize v with
    | none => serializeProps ps
    | some j => (k, j) :: serializeProps ps
end

mutual
/-- The value denoted by a JSON document. -/
def revive : Json → JSVal
  | Json.null => JSVal.null
  | Json.bool b => JSVal.bool b
  | Json.num q => JSVal.num (JSNum.fin q)
  | Json.str s => JSVal.str s
  | Json.arr items => JSVal.arr (reviveItems items)
  | Json.obj members => JSVal.obj (reviveMembers [] members)
/-- Elements of an array document. -/
def reviveItems : List Json → List JSVal
  | [] => []
  | j :: js => revive j :: reviveItems js
/-- Members of an object document, defined left to right: a repeated key overwrites. -/
def reviveMembers (acc : List (String × JSVal)) : List (String × Json) → List (String × JSVal)
  | [] => acc
  | (k, j) :: ms => reviveMembers (JSVal.setProp acc k (revive j)) ms
end

/-- The platform function `JSON.stringify` applied to one value. -/
def stringify (v : JSVal) : Option Json := serialize v

/-- The platform function `JSON.parse` applied to what `getItem` returns: `none` is the
`null` of an absent key, which is read as the text `null`. -/
def parse : Option StoredString → Except JSError JSVal
  | none => Except.ok JSVal.null
  | some (StoredString.jsonText doc) => Except.ok (revive doc)
  | some (StoredString.otherText _) => Except.error JSError.SyntaxError

end JSON

/-! ## The workout classes -/

/-- What one construction reads from the clock: the result of `Date.now()`, the time
value of `new Date()`, and the offset of local time from UTC in minutes. -/
structure Clock where
  now : Nat
  dateTime : Nat
  tz : Int

/-- The identifier `+(Date.now() + '').slice(-6)`: the decimal digits of the time stamp,
its last six characters, read back as a number.  The digit list of 0 is empty where the
text is `0`; both read back as 0. -/
def Workout.id (now : Nat) : Nat :=
  let text := (Nat.digits 10 now).reverse
  let last := text.drop (text.length - 6)
  Nat.ofDigits 10 last.reverse

/-- The fields set by the constructor of `Workout`, in assignment order. -/
def Workout.constructor (distance duration : JSNum) (coords : JSVal) (clk : Clock) :
    List (String × JSVal) :=
  [("id", JSVal.num (JSNum.fin (Workout.id clk.now))),
   ("distance", JSVal.num distance),
   ("duration", JSVal.num duration),
   ("coords", coords),
   ("date", JSVal.date clk.dateTime)]

/-- The method `_popupContent`, from the fields `type` and `date` it reads. -/
def Workout._popupContent (type : String) (date : Nat) (tz : Int) : String :=
  (if type = "running" then "🏃‍♂️" else "🚴‍♀️") ++ " " ++ type ++ " on "
    ++ months.getD (Date.getMonth date tz) "undefined" ++ " "
    ++ toString (Date.getDate date tz)

/-- The object built by `new Running(distance, duration, coords, cadence)`. -/
def Running.constructor (distance duration : JSNum) (coords : JSVal) (cadence : JSNum)
    (clk : Clock) : JSVal :=
  JSVal.obj (Workout.constructor distance duration coords clk ++
    [("type", JSVal.str "running"),
     ("cadence", JSVal.num cadence),
     ("pace", JSVal.num (duration.div distance)),
     ("popupContent", JSVal.str (Workout._popupContent "running" clk.dateTime clk.tz))])

/-- The object built by `new Cycling(distance, duration, coords, elevation)`. -/
def Cycling.constructor (distance duration : JSNum) (coords : JSVal) (elevation : JSNum)
    (clk : Clock) : JSVal :=
  JSVal.obj (Workout.constructor distance duration coords clk ++
    [("type", JSVal.str "cycling"),
     ("elevation", JSVal.num elevation),
     ("speed", JSVal.num (distance.div (duration.div (JSNum.fin 60)))),
     ("popupContent", JSVal.str (Workout._popupContent "cycling" clk.dateTime clk.tz))])

/-! ## The controller -/

/-- The form and its inputs. -/
structure Form where
  hidden : Bool
  inputType : String
  inputDistance : JSNum
  inputDuration : JSNum
  inputCadence : JSNum
  inputElevation : JSNum

/-- Calls that leave the model. -/
inductive Effect where
  | alert (msg : String)
  | marker (coords : JSVal) (className : String) (content : JSVal)
  | listItem (workout : JSVal)
  | setView (coords : JSVal)

/-- The private fields of `App` the model follows, with the form and the stored item. -/
structure App where
  markerPosition : Option (JSNum × JSNum)
  workouts : List JSVal
  localStorage : Option StoredString
  form : Form

/-- The outcome of running one method: the state left behind, the effects in order, and
the error that ended the method early, if any. -/
structure Run where
  app : App
  effects : List Effect
  thrown : Option JSError

/-- The value of `this.#markerPosition`. -/
def coordsVal : Option (JSNum × JSNum) → JSVal
  | none => JSVal.undefined
  | some (lat, lng) => JSVal.arr [JSVal.num lat, JSVal.num lng]

namespace App

/-- The method `_showForm`. -/
def _showForm (s : App) : App :=
  { s with form := { s.form with hidden := false } }

/-- The method `_resetForm`: the four numeric inputs are emptied. -/
def _resetForm (s : App) : App :=
  { s with form := { s.form with
      hidden := true
      inputCadence := JSNum.fin 0
      inputDistance := JSNum.fin 0
      inputDuration := JSNum.fin 0
      inputElevation := JSNum.fin 0 } }

/-- The click handler registered on the map by `_loadMap`. -/
def mapClick (s : App) (lat lng : JSNum) : App :=
  _showForm { s with markerPosition := some (lat, lng) }

/-- The arrow function `_checkNumbers`. -/
def _checkNumbers (numpers : List JSNum) : Bool :=
  numpers.all (fun num => num.isFinite && num.gt (JSNum.fin 0))

/-- The text `setItem` stores for the result of `JSON.stringify`: the JSON text, or the
text `undefined` when there is none. -/
def storedText : Option Json → StoredString
  | some doc => StoredString.jsonText doc
  | none => StoredString.otherText "undefined"

/-- The method `_setLocalStorage`. -/
def _setLocalStorage (s : App) : App :=
  { s with localStorage := some (storedText (JSON.stringify (JSVal.arr s.workouts))) }

/-- The method `_renderOnMap`, up to the call into Leaflet. -/
def _renderOnMap (workout : JSVal) : Except JSError Effect :=
  if workout.isNullish then Except.error JSError.TypeError
  else Except.ok (Effect.marker (workout.get "coords")
    ((if (workout.get "type").isStr "running" then "running" else "cycling") ++ "-popup")
    (workout.get "popupContent"))

/-- The method `_renderInList`: the list item is built unless a property read or the call
of `toFixed` throws. -/
def _renderInList (workout : JSVal) : Except JSError Effect :=
  if workout.isNullish then Except.error JSError.TypeError
  else
    match (if (workout.get "type").isStr "running" then workout.get "pace"
           else workout.get "speed") with
    | JSVal.num _ => Except.ok (Effect.listItem workout)
    | _ => Except.error JSError.TypeError

/-- The method `_newWorkout`. -/
def _newWorkout (s : App) (clk : Clock) : Run :=
  let distance := s.form.inputDistance
  let duration := s.form.inputDuration
  let rejected : Run :=
    ⟨s._resetForm, [Effect.alert "Input fields must contain positive Numbers !!"], none⟩
  let first : Option JSVal :=
    if s.form.inputType = "running" then
      let cadence := s.form.inputCadence
      if !_checkNumbers [distance, duration, cadence] then none
      else some (Running.constructor distance duration (coordsVal s.markerPosition)
        cadence clk)
    else some JSVal.undefined
  match first with
  | none => rejected
  | some w =>
    let second : Option JSVal :=
      if s.form.inputType = "cycling" then
        let elevation := s.form.inputElevation
        if !_checkNumbers [distance, duration, elevation] then none
        else some (Cycling.constructor distance duration (coordsVal s.markerPosition)
          elevation clk)
      else some w
    match second with
    | none => rejected
    | some workout =>
      let pushed : App := { s with workouts := s.workouts ++ [workout] }
      let done := pushed._setLocalStorage._resetForm
      match _renderOnMap workout with
      | Except.error e => ⟨done, [], some e⟩
      | Except.ok m =>
        match _renderInList workout with
        | Except.error e => ⟨done, [m], some e⟩
        | Except.ok l => ⟨done, [m, l], none⟩

/-- The loop `forEach(work => this._renderInList(work))`, stopped by the first throw. -/
def renderAll : List JSVal → List Effect × Option JSError
  | [] => ([], none)
  | w :: ws =>
    match _renderInList w with
    | Except.error e => ([], some e)
    | Except.ok l => (l :: (renderAll ws).1, (renderAll ws).2)

/-- The method `_restoreLocalStorage`.  A parsed value that is truthy and not an array
is assigned to the store and the call of `forEach` on it throws; the constructor is then
abandoned, so the assignment is not observable and the model leaves the store as it was. -/
def _restoreLocalStorage (s : App) : Run :=
  match JSON.parse s.localStorage with
  | Except.error e => ⟨s, [], some e⟩
  | Except.ok data =>
    if data.truthy then
      match data with
      | JSVal.arr items =>
        ⟨{ s with workouts := items }, (renderAll items).1, (renderAll items).2⟩
      | _ => ⟨s, [], some JSError.TypeError⟩
    else ⟨s, (renderAll s.workouts).1, (renderAll s.workouts).2⟩

/-- The expression `new App()`, up to `_getPosition` and the registration of the
listeners: the fields take their initial values and the store is restored. -/
def constructor (storage : Option StoredString) (form : Form) : Run :=
  _restoreLocalStorage ⟨none, [], storage, form⟩

/-- The call of `find` in `_goToWorkout`, with the callback of the source. -/
def findById : List JSVal → JSNum → Except JSError JSVal
  | [], _ => Except.ok JSVal.undefined
  | w :: ws, id =>
    if w.isNullish then Except.error JSError.TypeError
    else if (w.get "id").isNum id then Except.ok w
    else findById ws id

/-- The method `_goToWorkout`; `target` is `none` when the click was outside every list
item and otherwise the number read from the `data-id` of the item. -/
def _goToWorkout (s : App) (target : Option JSNum) : Run :=
  match target with
  | none => ⟨s, [], none⟩
  | some id =>
    match findById s.workouts id with
    | Except.error e => ⟨s, [], some e⟩
    | Except.ok w =>
      if w.isNullish then ⟨s, [], some JSError.TypeError⟩
      else ⟨s, [Effect.setView (w.get "coords")], none⟩

end App

/-! ## Events -/

/-- The two options of the type selector. -/
inductive Kind where
  | running
  | cycling
  deriving DecidableEq

/-- The `value` of an option of the type selector. -/
def Kind.value : Kind → String
  | Kind.running => "running"
  | Kind.cycling => "cycling"

/-- The user fills the form: the selector, distance, duration, and the input shown for
the chosen kind. -/
def Form.fill (f : Form) (kind : Kind) (distance duration variant : JSNum) : Form :=
  match kind with
  | Kind.running =>
    { f with inputType := "running", inputDistance := distance, inputDuration := duration,
             inputCadence := variant }
  | Kind.cycling =>
    { f with inputType := "cycling", inputDistance := distance, inputDuration := duration,
             inputElevation := variant }

/-- The events the controller listens to. -/
inductive Event where
  | mapClicked (lat lng : JSNum)
  | formSubmitted (kind : Kind) (distance duration variant : JSNum) (clk : Clock)
  | formCancelled

/-- One event handled to completion.  An error thrown by a handler ends the handler and
leaves the state it had reached. -/
def step (s : App) : Event → App
  | Event.mapClicked lat lng => s.mapClick lat lng
  | Event.formSubmitted kind distance duration variant clk =>
    (App._newWorkout { s with form := s.form.fill kind distance duration variant } clk).app
  | Event.formCancelled => s._resetForm

/-- A sequence of events handled in order. -/
def run (s : App) (events : List Event) : App := events.foldl step s

/-! ## Predicates and abbreviations used in the statements -/

/-- A number that is finite and strictly positive. -/
def JSNum.FinitePositive : JSNum → Prop
  | JSNum.fin q => 0 < q
  | _ => False

/-- A number that is at most zero, `NaN` or infinite. -/
def JSNum.Invalid : JSNum → Prop
  | JSNum.fin q => q ≤ 0
  | _ => True

instance (n : JSNum) : Decidable n.FinitePositive := by
  cases n <;> unfold JSNum.FinitePositive <;> infer_instance

instance (n : JSNum) : Decidable n.Invalid := by
  cases n <;> unfold JSNum.Invalid <;> infer_instance

/-- The third number `_newWorkout` reads: cadence for running, elevation otherwise. -/
def Form.variant (f : Form) : JSNum :=
  if f.inputType = "running" then f.inputCadence else f.inputElevation

/-- The workout `_newWorkout` constructs from the form when the numbers pass the check. -/
def App.newEntry (s : App) (clk : Clock) : JSVal :=
  if s.form.inputType = "running" then
    Running.constructor s.form.inputDistance s.form.inputDuration (coordsVal s.markerPosition)
      s.form.inputCadence clk
  else
    Cycling.constructor s.form.inputDistance s.form.inputDuration (coordsVal s.markerPosition)
      s.form.inputElevation clk

/-- The state `_newWorkout` leaves after the push of `w`. -/
def App.pushed (s : App) (w : JSVal) : App :=
  (App._setLocalStorage { s with workouts := s.workouts ++ [w] })._resetForm

/-- The marker `_renderOnMap` places for a workout object. -/
def App.markerOf (w : JSVal) : Effect :=
  Effect.marker (w.get "coords")
    ((if (w.get "type").isStr "running" then "running" else "cycling") ++ "-popup")
    (w.get "popupContent")

/-- The constructor `_newWorkout` dispatches to for a kind. -/
def Kind.build (kind : Kind) (distance duration variant : JSNum) (coords : JSVal)
    (clk : Clock) : JSVal :=
  match kind with
  | Kind.running => Running.constructor distance duration coords variant clk
  | Kind.cycling => Cycling.constructor distance duration coords variant clk

/-- The state in which the submit handler runs: the form holds what the user entered. -/
def App.filled (s : App) (kind : Kind) (distance duration variant : JSNum) : App :=
  { s with form := s.form.fill kind distance duration variant }

/-- The content of a submit event. -/
structure Submission where
  kind : Kind
  distance : JSNum
  duration : JSNum
  variant : JSNum
  clk : Clock

/-- A submission whose three numbers are finite and strictly positive. -/
def Submission.Valid (sub : Submission) : Prop :=
  sub.distance.FinitePositive ∧ sub.duration.FinitePositive ∧ sub.variant.FinitePositive

instance (sub : Submission) : Decidable sub.Valid := by
  unfold Submission.Valid; infer_instance

/-- The submission carried by an event, when it is a valid one. -/
def Event.accepted : Event → Option Submission
  | Event.formSubmitted kind distance duration variant clk =>
    if Submission.Valid ⟨kind, distance, duration, variant, clk⟩ then
      some ⟨kind, distance, duration, variant, clk⟩
    else none
  | _ => none

/-- The valid submissions among a sequence of events, in order. -/
def acceptedSubmissions (events : List Event) : List Submission :=
  events.filterMap Event.accepted

/-- A store entry that is the workout of the kind of `sub`, built from its numbers at
some coordinates. -/
def BuiltFrom (w : JSVal) (sub : Submission) : Prop :=
  sub.Valid ∧ ∃ coords : JSVal,
    w = sub.kind.build sub.distance sub.duration sub.variant coords sub.clk

/-- Whether an event is a click on the map. -/
def Event.isMapClick : Event → Bool
  | Event.mapClicked _ _ => true
  | _ => false

/-- The form after `_resetForm`: hidden, with its four numeric inputs empty. -/
def Form.Cleared (f : Form) : Prop :=
  f.hidden = true ∧ f.inputDistance = JSNum.fin 0 ∧ f.inputDuration = JSNum.fin 0 ∧
    f.inputCadence = JSNum.fin 0 ∧ f.inputElevation = JSNum.fin 0

/-- The value that comes back for an array element `w` from
`JSON.parse(JSON.stringify(...))`. -/
def persistedImage (w : JSVal) : JSVal :=
  JSON.revive ((JSON.serialize w).getD Json.null)

/-- The derived metric the constructor of a kind computes: pace for running, speed for
cycling. -/
def Kind.metric (kind : Kind) (distance duration : JSNum) : JSNum :=
  match kind with
  | Kind.running => duration.div distance
  | Kind.cycling => distance.div (duration.div (JSNum.fin 60))

/-- A workout object as `_newWorkout` creates it: built by the constructor of its kind from
finite, strictly positive numbers, at coordinates that are undefined or a pair of finite
numbers; and one whose pace or speed came out finite. -/
def Created (w : JSVal) : Prop :=
  ∃ (kind : Kind) (d t v : ℚ) (pos : Option (ℚ × ℚ)) (clk : Clock),
    0 < d ∧ 0 < t ∧ 0 < v ∧
    (kind.metric (JSNum.fin d) (JSNum.fin t)).isFinite = true ∧
    w = kind.build (JSNum.fin d) (JSNum.fin t) (JSNum.fin v)
      (coordsVal (pos.map (fun p => (JSNum.fin p.1, JSNum.fin p.2)))) clk

/-- A store entry of this program: created in this session, or restored from the text an
earlier session persisted for a created workout. -/
def Persistable (w : JSVal) : Prop :=
  Created w ∨ ∃ w0, Created w0 ∧ w = persistedImage w0

/-- The entry `r` reads like `w` on every property but `date`, and its `date` is the ISO
string of the `Date` object of `w`, or the string `w` already had. -/
def RestoredAs (w r : JSVal) : Prop :=
  (∀ key : String, key ≠ "date" → r.get key = w.get key) ∧
  ((∃ t, w.get "date" = JSVal.date t ∧ r.get "date" = JSVal.str (Date.toISOString t)) ∨
   (∃ text, w.get "date" = JSVal.str text ∧ r.get "date" = JSVal.str text))

/-- Whether `_renderInList` completes on an entry. -/
def App.renders (w : JSVal) : Bool :=
  match App._renderInList w with
  | Except.ok _ => true
  | Except.error _ => false

/-! ## Sample inputs -/

/-- A clock reading on 2024-11-04, in a zone two hours ahead of UTC. -/
def sampleClock : Clock := ⟨1730761200123, 1730761200123, 120⟩

/-- An open form with empty inputs and the selector on running. -/
def sampleForm : Form := ⟨false, "running", JSNum.fin 0, JSNum.fin 0, JSNum.fin 0, JSNum.fin 0⟩

/-- A controller with an empty store, nothing persisted and no click on the map yet. -/
def freshApp : App := ⟨none, [], none, sampleForm⟩

/-- The form filled with distance -3, duration 25 and cadence 170 after a click. -/
def badSubmission : App :=
  { freshApp.mapClick (JSNum.fin (301 / 10)) (JSNum.fin (312 / 10)) with
    form := sampleForm.fill Kind.running (JSNum.fin (-3)) (JSNum.fin 25) (JSNum.fin 170) }

/-- The form filled with distance 5, duration 25 and cadence 170 after a click at
(30.1, 31.2). -/
def goodSubmission : App :=
  (freshApp.mapClick (JSNum.fin (301 / 10)) (JSNum.fin (312 / 10))).filled Kind.running
    (JSNum.fin 5) (JSNum.fin 25) (JSNum.fin 170)

/-- A session: a click, a rejected submission, a click, a running workout, a cancel, a
click, a cycling workout. -/
def sampleSession : List Event :=
  [Event.mapClicked (JSNum.fin 10) (JSNum.fin 20),
   Event.formSubmitted Kind.running (JSNum.fin (-3)) (JSNum.fin 25) (JSNum.fin 170) sampleClock,
   Event.mapClicked (JSNum.fin (301 / 10)) (JSNum.fin (312 / 10)),
   Event.formSubmitted Kind.running (JSNum.fin 5) (JSNum.fin 25) (JSNum.fin 170) sampleClock,
   Event.formCancelled,
   Event.mapClicked (JSNum.fin 30) (JSNum.fin 31),
   Event.formSubmitted Kind.cycling (JSNum.fin 20) (JSNum.fin 60) (JSNum.fin 150)
     ⟨1730761260123, 1730761260123, 120⟩]

/-- The form filled with distance 5, duration 25 and cadence 170 when the map was never
clicked. -/
def noClickSubmission : App :=
  freshApp.filled Kind.running (JSNum.fin 5) (JSNum.fin 25) (JSNum.fin 170)

/-- A clock reading 1000 seconds after `sampleClock`. -/
def laterClock : Clock := ⟨1730762200123, 1730762200123, 120⟩

/-- Two workouts created 1000 seconds apart at different places. -/
def collidingSession : List Event :=
  [Event.mapClicked (JSNum.fin 10) (JSNum.fin 20),
   Event.formSubmitted Kind.running (JSNum.fin 5) (JSNum.fin 25) (JSNum.fin 170) sampleClock,
   Event.mapClicked (JSNum.fin 30) (JSNum.fin 31),
   Event.formSubmitted Kind.cycling (JSNum.fin 20) (JSNum.fin 60) (JSNum.fin 150) laterClock]

/-- A click followed by two submissions with no click in between. -/
def doubleSubmitSession : List Event :=
  [Event.mapClicked (JSNum.fin 10) (JSNum.fin 20),
   Event.formSubmitted Kind.running (JSNum.fin 5) (JSNum.fin 25) (JSNum.fin 170) sampleClock,
   Event.formSubmitted Kind.cycling (JSNum.fin 20) (JSNum.fin 60) (JSNum.fin 150) laterClock]

/-- The state after a click at (30.1, 31.2) and the submission of a running workout. -/
def storedOnce : App := goodSubmission.pushed (goodSubmission.newEntry sampleClock)

/-- The form filled with distance 2^-600, duration 2^600 and cadence 170 after a click at
(10, 20). -/
def steepSubmission : App :=
  (freshApp.mapClick (JSNum.fin 10) (JSNum.fin 20)).filled Kind.running
    (JSNum.fin (1 / 2 ^ 600)) (JSNum.fin (2 ^ 600)) (JSNum.fin 170)

/-- The state after the submission of `steepSubmission`. -/
def storedSteep : App := steepSubmission.pushed (steepSubmission.newEntry sampleClock)

/-! ## Validation -/

theorem JSNum.invalid_iff_not_finitePositive (n : JSNum) :
    n.Invalid ↔ ¬ n.FinitePositive := by
  cases n <;> simp [JSNum.Invalid, JSNum.FinitePositive]

theorem JSNum.check_iff (n : JSNum) :
    (n.isFinite && n.gt (JSNum.fin 0)) = true ↔ n.FinitePositive := by
  cases n <;> simp [JSNum.isFinite, JSNum.gt, JSNum.FinitePositive]

theorem App.checkNumbers_three (a b c : JSNum) :
    App._checkNumbers [a, b, c] = true ↔
      a.FinitePositive ∧ b.FinitePositive ∧ c.FinitePositive := by
  rw [← JSNum.check_iff a, ← JSNum.check_iff b, ← JSNum.check_iff c]
  simp [App._checkNumbers]

theorem App.checkNumbers_invalid (a b c : JSNum)
    (h : a.Invalid ∨ b.Invalid ∨ c.Invalid) : App._checkNumbers [a, b, c] = false := by
  rw [← Bool.not_eq_true, App.checkNumbers_three]
  simp only [JSNum.invalid_iff_not_finitePositive] at h
  tauto

/-! ## Reads on constructed workouts -/

@[simp] theorem running_get_type (d t : JSNum) (c : JSVal) (v : JSNum) (clk : Clock) :
    (Running.constructor d t c v clk).get "type" = JSVal.str "running" := by
  simp [Running.constructor, Workout.constructor, JSVal.get, List.lookup]

@[simp] theorem running_get_pace (d t : JSNum) (c : JSVal) (v : JSNum) (clk : Clock) :
    (Running.constructor d t c v clk).get "pace" = JSVal.num (t.div d) := by
  simp [Running.constructor, Workout.constructor, JSVal.get, List.lookup]

@[simp] theorem cycling_get_type (d t : JSNum) (c : JSVal) (v : JSNum) (clk : Clock) :
    (Cycling.constructor d t c v clk).get "type" = JSVal.str "cycling" := by
  simp [Cycling.constructor, Workout.constructor, JSVal.get, List.lookup]

@[simp] theorem cycling_get_speed (d t : JSNum) (c : JSVal) (v : JSNum) (clk : Clock) :
    (Cycling.constructor d t c v clk).get "speed" =
      JSVal.num (d.div (t.div (JSNum.fin 60))) := by
  simp [Cycling.constructor, Workout.constructor, JSVal.get, List.lookup]

theorem running_render (d t : JSNum) (c : JSVal) (v : JSNum) (clk : Clock) :
    App._renderOnMap (Running.constructor d t c v clk)
        = Except.ok (App.markerOf (Running.constructor d t c v clk)) ∧
      App._renderInList (Running.constructor d t c v clk)
        = Except.ok (Effect.listItem (Running.constructor d t c v clk)) := by
  constructor
  · simp [App._renderOnMap, App.markerOf, Running.constructor, JSVal.isNullish]
  · rw [App._renderInList, running_get_type, running_get_pace]
    simp [Running.constructor, JSVal.isNullish, JSVal.isStr]

theorem cycling_render (d t : JSNum) (c : JSVal) (v : JSNum) (clk : Clock) :
    App._renderOnMap (Cycling.constructor d t c v clk)
        = Except.ok (App.markerOf (Cycling.constructor d t c v clk)) ∧
      App._renderInList (Cycling.constructor d t c v clk)
        = Except.ok (Effect.listItem (Cycling.constructor d t c v clk)) := by
  constructor
  · simp [App._renderOnMap, App.markerOf, Cycling.constructor, JSVal.isNullish]
  · rw [App._renderInList, cycling_get_type, cycling_get_speed]
    simp [Cycling.constructor, JSVal.isNullish, JSVal.isStr]

/-! ## The two outcomes of `_newWorkout` -/

theorem App.newWorkout_rejected (s : App) (clk : Clock)
    (hk : s.form.inputType = "running" ∨ s.form.inputType = "cycling")
    (hc : App._checkNumbers [s.form.inputDistance, s.form.inputDuration, s.form.variant]
      = false) :
    App._newWorkout s clk =
      ⟨s._resetForm, [Effect.alert "Input fields must contain positive Numbers !!"], none⟩ := by
  rcases hk with hk | hk
  · simp only [Form.variant, hk, if_true] at hc
    simp [App._newWorkout, hk, hc]
  · have hne : ¬ (s.form.inputType = "running") := by rw [hk]; decide
    simp only [Form.variant, hne, if_false] at hc
    simp [App._newWorkout, hk, hc]

theorem App.newWorkout_accepted (s : App) (clk : Clock)
    (hk : s.form.inputType = "running" ∨ s.form.inputType = "cycling")
    (hc : App._checkNumbers [s.form.inputDistance, s.form.inputDuration, s.form.variant]
      = true) :
    App._newWorkout s clk =
      ⟨s.pushed (s.newEntry clk),
        [App.markerOf (s.newEntry clk), Effect.listItem (s.newEntry clk)], none⟩ := by
  rcases hk with hk | hk
  · simp only [Form.variant, hk, if_true] at hc
    simp [App._newWorkout, hk, hc, App.newEntry, App.pushed, running_render]
  · have hne : ¬ (s.form.inputType = "running") := by rw [hk]; decide
    simp only [Form.variant, hne, if_false] at hc
    simp [App._newWorkout, hk, hc, App.newEntry, App.pushed, cycling_render]

/-! ## Rejection of invalid numbers -/

/-- C1: when the selector is on running or cycling and one of the three numbers read from
the form (distance, duration, and cadence or elevation) is at most zero, `NaN` or
infinite, `_checkNumbers` returns false, `_newWorkout` only raises the alert, and the
store and the persisted text are unchanged; and `_checkNumbers` accepts three numbers
exactly when each is finite and strictly positive. -/
theorem newWorkout_rejects_invalid_numbers (s : App) (clk : Clock)
    (hk : s.form.inputType = "running" ∨ s.form.inputType = "cycling")
    (hbad : s.form.inputDistance.Invalid ∨ s.form.inputDuration.Invalid ∨
      s.form.variant.Invalid) :
    App._checkNumbers [s.form.inputDistance, s.form.inputDuration, s.form.variant] = false ∧
    (App._newWorkout s clk).app.workouts = s.workouts ∧
    (App._newWorkout s clk).app.localStorage = s.localStorage ∧
    (App._newWorkout s clk).effects =
      [Effect.alert "Input fields must contain positive Numbers !!"] ∧
    (∀ a b c : JSNum, App._checkNumbers [a, b, c] = true ↔
      a.FinitePositive ∧ b.FinitePositive ∧ c.FinitePositive) := by
  have hc := App.checkNumbers_invalid _ _ _ hbad
  rw [App.newWorkout_rejected s clk hk hc]
  exact ⟨hc, rfl, rfl, rfl, App.checkNumbers_three⟩

theorem newWorkout_rejects_invalid_numbers_witness :
    badSubmission.form.inputDistance.Invalid ∧
    (App._newWorkout badSubmission sampleClock).app.workouts = badSubmission.workouts ∧
    (App._newWorkout badSubmission sampleClock).effects =
      [Effect.alert "Input fields must contain positive Numbers !!"] :=
  have h : badSubmission.form.inputDistance.Invalid := by
    simp [badSubmission, Form.fill, JSNum.Invalid]
  have t := newWorkout_rejects_invalid_numbers badSubmission sampleClock (Or.inl rfl)
    (Or.inl h)
  ⟨h, t.2.1, t.2.2.2.1⟩

/-! ## Binary64 rounding -/

namespace JSNum

theorem roundHalfEven_intCast (z : ℤ) : roundHalfEven (z : ℚ) = z := by
  simp [roundHalfEven]

theorem floor_le_roundHalfEven (m : ℚ) : ⌊m⌋ ≤ roundHalfEven m := by
  unfold roundHalfEven
  split_ifs <;> omega

theorem roundHalfEven_down (m : ℚ) (f : ℤ) (h1 : (f : ℚ) ≤ m) (h2 : m < f + 1 / 2) :
    roundHalfEven m = f := by
  have hf : ⌊m⌋ = f := Int.floor_eq_iff.2 ⟨h1, by linarith⟩
  have h3 : m - ⌊m⌋ < 1 / 2 := by rw [hf]; linarith
  unfold roundHalfEven
  rw [if_pos h3, hf]

theorem roundHalfEven_up (m : ℚ) (f : ℤ) (h1 : (f : ℚ) + 1 / 2 < m) (h2 : m < f + 1) :
    roundHalfEven m = f + 1 := by
  have hf : ⌊m⌋ = f := Int.floor_eq_iff.2 ⟨by linarith, h2⟩
  have h3 : ¬ (m - ⌊m⌋ < 1 / 2) := by rw [hf]; linarith
  have h4 : 1 / 2 < m - ⌊m⌋ := by rw [hf]; linarith
  unfold roundHalfEven
  rw [if_neg h3, if_pos h4, hf]

theorem log_eq_of_bounds (q : ℚ) (E : ℤ) (h1 : (2 : ℚ) ^ E ≤ q) (h2 : q < (2 : ℚ) ^ (E + 1)) :
    Int.log 2 q = E := by
  have hq : 0 < q := lt_of_lt_of_le (by positivity) h1
  have hb : 1 < 2 := by norm_num
  have a : E ≤ Int.log 2 q := (Int.zpow_le_iff_le_log hb hq).1 (by exact_mod_cast h1)
  have b : Int.log 2 q < E + 1 := (Int.lt_zpow_iff_log_lt hb hq).1 (by exact_mod_cast h2)
  omega

theorem ofRat_eval (q : ℚ) (E n : ℤ) (hlo : (2 : ℚ) ^ E ≤ q) (hhi : q < (2 : ℚ) ^ (E + 1))
    (hE : -1022 ≤ E) (hround : roundHalfEven (q / 2 ^ (E - 52)) = n)
    (hfin : (n : ℚ) * 2 ^ (E - 52) < 2 ^ (1024 : ℤ)) :
    ofRat q = fin (n * 2 ^ (E - 52)) := by
  have hq : 0 < q := lt_of_lt_of_le (by positivity) hlo
  have hu : ulpExp q = E - 52 := by
    rw [ulpExp, log_eq_of_bounds q E hlo hhi]; omega
  simp only [ofRat, hq.ne', hq, if_false, if_true, roundPos, hu, hround, hfin]

theorem ofRat_dyadic (m : ℕ) (e : ℤ) (hm0 : 0 < m) (hm : m < 2 ^ 53) (he : -1074 ≤ e)
    (he2 : e ≤ 971) : ofRat ((m : ℚ) * 2 ^ e) = fin ((m : ℚ) * 2 ^ e) := by
  have h2 : (0 : ℚ) < 2 := by norm_num
  have hq : (0 : ℚ) < (m : ℚ) * 2 ^ e := by positivity
  have hmq : (m : ℚ) < 2 ^ (53 : ℤ) := by
    have : ((m : ℕ) : ℚ) < ((2 ^ 53 : ℕ) : ℚ) := by exact_mod_cast hm
    have h53 : ((2 ^ 53 : ℕ) : ℚ) = (2 : ℚ) ^ (53 : ℤ) := by norm_num
    rwa [h53] at this
  have hlt : (m : ℚ) * 2 ^ e < 2 ^ (53 + e) := by
    rw [zpow_add₀ h2.ne']
    exact mul_lt_mul_of_pos_right hmq (by positivity)
  have hlog : Int.log 2 ((m : ℚ) * 2 ^ e) < 53 + e :=
    (Int.lt_zpow_iff_log_lt (by norm_num) hq).1 (by exact_mod_cast hlt)
  have hu : ulpExp ((m : ℚ) * 2 ^ e) ≤ e := by
    unfold ulpExp; omega
  obtain ⟨k, hk⟩ : ∃ k : ℕ, e = ulpExp ((m : ℚ) * 2 ^ e) + k :=
    ⟨(e - ulpExp ((m : ℚ) * 2 ^ e)).toNat, by omega⟩
  have hdiv : (m : ℚ) * 2 ^ e / 2 ^ ulpExp ((m : ℚ) * 2 ^ e) = ((m * 2 ^ k : ℤ) : ℚ) := by
    rw [mul_div_assoc, ← zpow_sub₀ h2.ne']
    have : e - ulpExp ((m : ℚ) * 2 ^ e) = (k : ℤ) := by omega
    rw [this]
    push_cast
    simp
  have hback : ((m * 2 ^ k : ℤ) : ℚ) * 2 ^ ulpExp ((m : ℚ) * 2 ^ e) = (m : ℚ) * 2 ^ e := by
    rw [← hdiv]
    field_simp
  have hfin : (m : ℚ) * 2 ^ e < 2 ^ (1024 : ℤ) :=
    lt_of_lt_of_le hlt (zpow_le_zpow_right₀ (by norm_num) (by omega))
  simp only [ofRat, hq.ne', hq, if_false, if_true, roundPos, hdiv, roundHalfEven_intCast, hback,
    hfin]

theorem ofRat_natCast (n : ℕ) (h : n < 2 ^ 53) : ofRat (n : ℚ) = fin n := by
  rcases Nat.eq_zero_or_pos n with rfl | hn
  · simp [ofRat]
  · simpa using ofRat_dyadic n 0 hn h (by norm_num) (by norm_num)

theorem ofRat_overflow (q : ℚ) (h : (2 : ℚ) ^ (1024 : ℤ) ≤ q) : ofRat q = posInf := by
  have h2 : (0 : ℚ) < 2 := by norm_num
  have hq : 0 < q := lt_of_lt_of_le (by positivity) h
  have hlog : 1024 ≤ Int.log 2 q := (Int.zpow_le_iff_le_log (by norm_num) hq).1 (by exact_mod_cast h)
  have hu : ulpExp q = Int.log 2 q - 52 := by unfold ulpExp; omega
  have hle : (2 : ℚ) ^ Int.log 2 q ≤ q := by
    have := Int.zpow_log_le_self (b := 2) (r := q) (by norm_num) hq
    exact_mod_cast this
  have hm : ((2 ^ 52 : ℤ) : ℚ) ≤ q / 2 ^ ulpExp q := by
    rw [hu, le_div_iff₀ (by positivity)]
    have : ((2 ^ 52 : ℤ) : ℚ) = (2 : ℚ) ^ (52 : ℤ) := by norm_num
    rw [this, ← zpow_add₀ h2.ne']
    simpa using hle
  have hfl : (2 ^ 52 : ℤ) ≤ roundHalfEven (q / 2 ^ ulpExp q) :=
    le_trans (Int.le_floor.2 hm) (floor_le_roundHalfEven _)
  have hr : ¬ ((roundHalfEven (q / 2 ^ ulpExp q) : ℚ) * 2 ^ ulpExp q < 2 ^ (1024 : ℤ)) := by
    rw [not_lt]
    calc (2 : ℚ) ^ (1024 : ℤ) ≤ 2 ^ Int.log 2 q := zpow_le_zpow_right₀ (by norm_num) hlog
      _ = ((2 ^ 52 : ℤ) : ℚ) * 2 ^ ulpExp q := by
          have : ((2 ^ 52 : ℤ) : ℚ) = (2 : ℚ) ^ (52 : ℤ) := by norm_num
          rw [this, hu, ← zpow_add₀ h2.ne']; simp
      _ ≤ (roundHalfEven (q / 2 ^ ulpExp q) : ℚ) * 2 ^ ulpExp q :=
          mul_le_mul_of_nonneg_right (by exact_mod_cast hfl) (by positivity)
  simp only [ofRat, hq.ne', hq, if_false, if_true, roundPos, hr]


theorem div_fin (a b : ℚ) (hb : b ≠ 0) : (fin a).div (fin b) = ofRat (a / b) := by
  simp [div, hb]

theorem div_eleven_sixty :
    (fin 11).div (fin 60) = fin (6605279453476727 / 36028797018963968) := by
  rw [div_fin _ _ (by norm_num),
    ofRat_eval (11 / 60) (-3) 6605279453476727 (by norm_num) (by norm_num) (by norm_num)
      (roundHalfEven_down _ _ (by norm_num) (by norm_num)) (by norm_num)]
  norm_num

theorem speed_eleven_eleven :
    (fin 11).div ((fin 11).div (fin 60)) = fin (8444249301319681 / 140737488355328) ∧
    (fin 11).div ((fin 11).div (fin 60)) ≠ fin 60 := by
  have h : (fin 11).div ((fin 11).div (fin 60)) = fin (8444249301319681 / 140737488355328) := by
    rw [div_eleven_sixty, div_fin _ _ (by norm_num),
      ofRat_eval (11 / (6605279453476727 / 36028797018963968)) 5 8444249301319681
        (by norm_num) (by norm_num) (by norm_num)
        (roundHalfEven_up _ 8444249301319680 (by norm_num) (by norm_num)) (by norm_num)]
    norm_num
  refine ⟨h, ?_⟩
  rw [h]
  intro heq
  injection heq with heq
  norm_num at heq

theorem two_zpow_le_pow_div (n : ℕ) (h : 1024 ≤ 2 * n) :
    (2 : ℚ) ^ (1024 : ℤ) ≤ 2 ^ n / (1 / 2 ^ n) := by
  have h2 : (2 : ℚ) ^ n / (1 / 2 ^ n) = (2 : ℚ) ^ ((2 * n : ℕ) : ℤ) := by
    rw [zpow_natCast, div_div_eq_mul_div, div_one, ← pow_add, two_mul]
  rw [h2]
  exact zpow_le_zpow_right₀ (by norm_num) (by exact_mod_cast h)

theorem div_overflow : (fin (2 ^ 600)).div (fin (1 / 2 ^ 600)) = posInf := by
  rw [div_fin _ _ (by positivity)]
  exact ofRat_overflow _ (two_zpow_le_pow_div 600 (by norm_num))

theorem div_exact (a b : ℚ) (m : ℕ) (e : ℤ) (hb : b ≠ 0) (hm0 : 0 < m) (hm : m < 2 ^ 53)
    (he : -1074 ≤ e) (he2 : e ≤ 971) (h : a / b = (m : ℚ) * 2 ^ e) :
    (fin a).div (fin b) = fin (a / b) := by
  rw [div_fin a b hb, h, ofRat_dyadic m e hm0 hm he he2]

theorem div_nat (a b : ℚ) (n : ℕ) (hb : b ≠ 0) (hn : n < 2 ^ 53) (h : a / b = (n : ℚ)) :
    (fin a).div (fin b) = fin (n : ℚ) := by
  rw [div_fin a b hb, h, ofRat_natCast n hn]

theorem div_sample : (fin 25).div (fin 5) = fin 5 := by
  have h := div_nat 25 5 5 (by norm_num) (by norm_num) (by norm_num)
  simpa using h

theorem eq_fin_of_isFinite (n : JSNum) (h : n.isFinite = true) : ∃ p, n = fin p := by
  cases n <;> simp [isFinite] at h
  exact ⟨_, rfl⟩

end JSNum

/-! ## Derived metrics -/

/-- C2: for finite distance, duration and variant field, all strictly positive, the
`pace` a Running workout stores is the quotient duration / distance of JavaScript, that is
the exact quotient rounded once to the nearest binary64 value, and the `speed` a Cycling
workout stores is distance / (duration / 60) evaluated by the same division; nothing
rounds the stored value further, and whenever the exact quotients are binary64 values
themselves the stored value is the exact quotient. -/
theorem derived_metric_formula (distance duration variant : ℚ) (coords : JSVal)
    (clk : Clock) (hd : 0 < distance) (ht : 0 < duration) (_hv : 0 < variant) :
    ((Running.constructor (JSNum.fin distance) (JSNum.fin duration) coords
        (JSNum.fin variant) clk).get "pace"
      = JSVal.num ((JSNum.fin duration).div (JSNum.fin distance)) ∧
     (JSNum.fin duration).div (JSNum.fin distance) = JSNum.ofRat (duration / distance) ∧
     ∀ (m : ℕ) (e : ℤ), 0 < m → m < 2 ^ 53 → -1074 ≤ e → e ≤ 971 →
       duration / distance = (m : ℚ) * 2 ^ e →
       (Running.constructor (JSNum.fin distance) (JSNum.fin duration) coords
         (JSNum.fin variant) clk).get "pace" = JSVal.num (JSNum.fin (duration / distance))) ∧
    ((Cycling.constructor (JSNum.fin distance) (JSNum.fin duration) coords
        (JSNum.fin variant) clk).get "speed"
      = JSVal.num ((JSNum.fin distance).div ((JSNum.fin duration).div (JSNum.fin 60))) ∧
     (JSNum.fin duration).div (JSNum.fin 60) = JSNum.ofRat (duration / 60) ∧
     ∀ (m1 m2 : ℕ) (e1 e2 : ℤ), 0 < m1 → m1 < 2 ^ 53 → -1074 ≤ e1 → e1 ≤ 971 →
       0 < m2 → m2 < 2 ^ 53 → -1074 ≤ e2 → e2 ≤ 971 →
       duration / 60 = (m1 : ℚ) * 2 ^ e1 →
       distance / (duration / 60) = (m2 : ℚ) * 2 ^ e2 →
       (Cycling.constructor (JSNum.fin distance) (JSNum.fin duration) coords
         (JSNum.fin variant) clk).get "speed"
         = JSVal.num (JSNum.fin (distance / (duration / 60)))) := by
  have h60 : (60 : ℚ) ≠ 0 := by norm_num
  have hq : duration / 60 ≠ 0 := div_ne_zero ht.ne.symm h60
  refine ⟨⟨running_get_pace _ _ _ _ _, JSNum.div_fin _ _ hd.ne.symm, ?_⟩,
    ⟨cycling_get_speed _ _ _ _ _, JSNum.div_fin _ _ h60, ?_⟩⟩
  · intro m e hm0 hm he he2 h
    rw [running_get_pace, JSNum.div_exact _ _ m e hd.ne.symm hm0 hm he he2 h]
  · intro m1 m2 e1 e2 hm10 hm1 he1 he12 hm20 hm2 he2 he22 h1 h2
    rw [cycling_get_speed, JSNum.div_exact _ _ m1 e1 h60 hm10 hm1 he1 he12 h1,
      JSNum.div_exact _ _ m2 e2 hq hm20 hm2 he2 he22 h2]

theorem derived_metric_formula_witness :
    ((0 : ℚ) < 5 ∧ (0 : ℚ) < 25 ∧ (0 : ℚ) < 170 ∧
      (Running.constructor (JSNum.fin 5) (JSNum.fin 25)
        (coordsVal (some (JSNum.fin (301 / 10), JSNum.fin (312 / 10)))) (JSNum.fin 170)
        sampleClock).get "pace" = JSVal.num (JSNum.fin 5)) ∧
    ((0 : ℚ) < 20 ∧ (0 : ℚ) < 60 ∧ (0 : ℚ) < 150 ∧
      (Cycling.constructor (JSNum.fin 20) (JSNum.fin 60)
        (coordsVal (some (JSNum.fin (301 / 10), JSNum.fin (312 / 10)))) (JSNum.fin 150)
        sampleClock).get "speed" = JSVal.num (JSNum.fin 20)) := by
  refine ⟨⟨by norm_num, by norm_num, by norm_num, ?_⟩,
    ⟨by norm_num, by norm_num, by norm_num, ?_⟩⟩
  · have h := (derived_metric_formula 5 25 170
      (coordsVal (some (JSNum.fin (301 / 10), JSNum.fin (312 / 10)))) sampleClock
      (by norm_num) (by norm_num) (by norm_num)).1.2.2 5 0 (by norm_num) (by norm_num)
      (by norm_num) (by norm_num) (by norm_num)
    rw [h]; norm_num
  · have h := (derived_metric_formula 20 60 150
      (coordsVal (some (JSNum.fin (301 / 10), JSNum.fin (312 / 10)))) sampleClock
      (by norm_num) (by norm_num) (by norm_num)).2.2.2 1 20 0 0 (by norm_num) (by norm_num)
      (by norm_num) (by norm_num) (by norm_num) (by norm_num) (by norm_num) (by norm_num)
      (by norm_num) (by norm_num)
    rw [h]; norm_num

/-- For distance 11 and duration 11 the stored speed is 60.00000000000001, the binary64
result of 11 / (11 / 60), and not 60. -/
theorem speed_is_rounded_twice (coords : JSVal) (clk : Clock) :
    (Cycling.constructor (JSNum.fin 11) (JSNum.fin 11) coords (JSNum.fin 150) clk).get "speed"
      = JSVal.num (JSNum.fin (8444249301319681 / 140737488355328)) ∧
    (Cycling.constructor (JSNum.fin 11) (JSNum.fin 11) coords (JSNum.fin 150) clk).get "speed"
      ≠ JSVal.num (JSNum.fin 60) := by
  rw [cycling_get_speed, JSNum.speed_eleven_eleven.1]
  refine ⟨rfl, ?_⟩
  intro h
  injection h with h
  injection h with h
  norm_num at h

/-- For distance 2^-600 and duration 2^600, which pass `_checkNumbers`, the stored pace is
`Infinity`. -/
theorem pace_overflows (coords : JSVal) (clk : Clock) :
    App._checkNumbers [JSNum.fin (1 / 2 ^ 600), JSNum.fin (2 ^ 600), JSNum.fin 170] = true ∧
    (Running.constructor (JSNum.fin (1 / 2 ^ 600)) (JSNum.fin (2 ^ 600)) coords (JSNum.fin 170)
      clk).get "pace" = JSVal.num JSNum.posInf := by
  constructor
  · rw [App.checkNumbers_three]
    refine ⟨?_, ?_, ?_⟩
    · show (0 : ℚ) < 1 / 2 ^ 600
      positivity
    · show (0 : ℚ) < 2 ^ 600
      positivity
    · show (0 : ℚ) < 170
      norm_num
  · rw [running_get_pace, JSNum.div_overflow]

/-! ## One event -/

theorem App.filled_type (s : App) (kind : Kind) (d t v : JSNum) :
    (s.filled kind d t v).form.inputType = kind.value := by
  cases kind <;> rfl

theorem App.filled_kind (s : App) (kind : Kind) (d t v : JSNum) :
    (s.filled kind d t v).form.inputType = "running" ∨
      (s.filled kind d t v).form.inputType = "cycling" := by
  cases kind
  · exact Or.inl rfl
  · exact Or.inr rfl

theorem App.filled_numbers (s : App) (kind : Kind) (d t v : JSNum) :
    (s.filled kind d t v).form.inputDistance = d ∧
    (s.filled kind d t v).form.inputDuration = t ∧
    (s.filled kind d t v).form.variant = v := by
  cases kind
  · exact ⟨rfl, rfl, rfl⟩
  · refine ⟨rfl, rfl, ?_⟩
    have hne : ¬ ("cycling" = "running") := by decide
    simp [App.filled, Form.fill, Form.variant, hne]

theorem App.filled_newEntry (s : App) (kind : Kind) (d t v : JSNum) (clk : Clock) :
    (s.filled kind d t v).newEntry clk = kind.build d t v (coordsVal s.markerPosition) clk := by
  cases kind
  · rfl
  · have hne : ¬ ("cycling" = "running") := by decide
    simp [App.filled, Form.fill, App.newEntry, Kind.build, hne]

theorem step_submit_valid (s : App) (kind : Kind) (d t v : JSNum) (clk : Clock)
    (h : d.FinitePositive ∧ t.FinitePositive ∧ v.FinitePositive) :
    step s (Event.formSubmitted kind d t v clk) =
      (s.filled kind d t v).pushed (kind.build d t v (coordsVal s.markerPosition) clk) := by
  obtain ⟨hd, ht, hv⟩ := App.filled_numbers s kind d t v
  have hc : App._checkNumbers [(s.filled kind d t v).form.inputDistance,
      (s.filled kind d t v).form.inputDuration, (s.filled kind d t v).form.variant] = true := by
    rw [hd, ht, hv]; exact (App.checkNumbers_three d t v).2 h
  have := App.newWorkout_accepted (s.filled kind d t v) clk (App.filled_kind s kind d t v) hc
  rw [App.filled_newEntry] at this
  simp only [step]
  exact congrArg Run.app this

theorem step_submit_invalid (s : App) (kind : Kind) (d t v : JSNum) (clk : Clock)
    (h : ¬ (d.FinitePositive ∧ t.FinitePositive ∧ v.FinitePositive)) :
    step s (Event.formSubmitted kind d t v clk) = (s.filled kind d t v)._resetForm := by
  obtain ⟨hd, ht, hv⟩ := App.filled_numbers s kind d t v
  have hc : App._checkNumbers [(s.filled kind d t v).form.inputDistance,
      (s.filled kind d t v).form.inputDuration, (s.filled kind d t v).form.variant] = false := by
    rw [hd, ht, hv, ← Bool.not_eq_true, App.checkNumbers_three]; exact h
  have := App.newWorkout_rejected (s.filled kind d t v) clk (App.filled_kind s kind d t v) hc
  simp only [step]
  exact congrArg Run.app this

theorem App.pushed_workouts (s : App) (w : JSVal) : (s.pushed w).workouts = s.workouts ++ [w] :=
  rfl

theorem App.pushed_marker (s : App) (w : JSVal) :
    (s.pushed w).markerPosition = s.markerPosition := rfl

theorem App.pushed_storage (s : App) (w : JSVal) :
    (s.pushed w).localStorage =
      some (StoredString.jsonText (Json.arr (JSON.serializeItems (s.workouts ++ [w])))) := by
  simp [App.pushed, App._setLocalStorage, App._resetForm, JSON.stringify, JSON.serialize,
    App.storedText]

theorem Kind.build_get_coords (kind : Kind) (d t v : JSNum) (c : JSVal) (clk : Clock) :
    (kind.build d t v c clk).get "coords" = c := by
  cases kind <;>
    simp [Kind.build, Running.constructor, Cycling.constructor, Workout.constructor,
      JSVal.get, List.lookup]

theorem Kind.build_get_type (kind : Kind) (d t v : JSNum) (c : JSVal) (clk : Clock) :
    (kind.build d t v c clk).get "type" = JSVal.str kind.value := by
  cases kind <;> simp [Kind.build, Kind.value]

theorem Kind.build_get_numbers (kind : Kind) (d t v : JSNum) (c : JSVal) (clk : Clock) :
    (kind.build d t v c clk).get "distance" = JSVal.num d ∧
    (kind.build d t v c clk).get "duration" = JSVal.num t ∧
    (kind.build d t v c clk).get (match kind with
      | Kind.running => "cadence"
      | Kind.cycling => "elevation") = JSVal.num v := by
  cases kind <;>
    simp [Kind.build, Running.constructor, Cycling.constructor, Workout.constructor,
      JSVal.get, List.lookup]

/-! ## Append and persist -/

/-- C10: for every store, when the selector is on running or cycling and the three numbers
read from the form are finite and strictly positive, `_newWorkout` leaves the previous
sequence unchanged and in order with the new workout added at the end, and the text
persisted under the key is the JSON text `JSON.stringify` gives for that full sequence. -/
theorem successful_submission_appends_and_persists (s : App) (clk : Clock)
    (hk : s.form.inputType = "running" ∨ s.form.inputType = "cycling")
    (hok : s.form.inputDistance.FinitePositive ∧ s.form.inputDuration.FinitePositive ∧
      s.form.variant.FinitePositive) :
    (App._newWorkout s clk).app.workouts = s.workouts ++ [s.newEntry clk] ∧
    (∃ doc, JSON.stringify (JSVal.arr (App._newWorkout s clk).app.workouts) = some doc ∧
      (App._newWorkout s clk).app.localStorage = some (StoredString.jsonText doc)) ∧
    (App._newWorkout s clk).thrown = none := by
  rw [App.newWorkout_accepted s clk hk ((App.checkNumbers_three _ _ _).2 hok)]
  refine ⟨rfl, ⟨_, rfl, ?_⟩, rfl⟩
  exact App.pushed_storage s _

/-! ## Placement -/

/-- C7: for every two pairs of coordinates, two clicks on the map followed by one
submission with finite, strictly positive numbers add exactly one workout to the store,
and its `coords` are those of the second click. -/
theorem last_click_wins (s : App) (lat1 lng1 lat2 lng2 : JSNum) (kind : Kind)
    (d t v : JSNum) (clk : Clock)
    (hok : d.FinitePositive ∧ t.FinitePositive ∧ v.FinitePositive) :
    ∃ w, (run s [Event.mapClicked lat1 lng1, Event.mapClicked lat2 lng2,
        Event.formSubmitted kind d t v clk]).workouts = s.workouts ++ [w] ∧
      w.get "coords" = JSVal.arr [JSVal.num lat2, JSVal.num lng2] ∧
      w = kind.build d t v (JSVal.arr [JSVal.num lat2, JSVal.num lng2]) clk := by
  refine ⟨kind.build d t v (JSVal.arr [JSVal.num lat2, JSVal.num lng2]) clk, ?_,
    Kind.build_get_coords _ _ _ _ _ _, rfl⟩
  simp only [run, List.foldl_cons, List.foldl_nil]
  rw [step_submit_valid _ _ _ _ _ _ hok]
  rfl

theorem last_click_wins_witness :
    ((JSNum.fin 5).FinitePositive ∧ (JSNum.fin 25).FinitePositive ∧
      (JSNum.fin 170).FinitePositive) ∧
    ∃ w, (run freshApp [Event.mapClicked (JSNum.fin 10) (JSNum.fin 20),
        Event.mapClicked (JSNum.fin (301 / 10)) (JSNum.fin (312 / 10)),
        Event.formSubmitted Kind.running (JSNum.fin 5) (JSNum.fin 25) (JSNum.fin 170)
          sampleClock]).workouts = freshApp.workouts ++ [w] ∧
      w.get "coords" = JSVal.arr [JSVal.num (JSNum.fin (301 / 10)),
        JSVal.num (JSNum.fin (312 / 10))] ∧
      w = Kind.running.build (JSNum.fin 5) (JSNum.fin 25) (JSNum.fin 170)
        (JSVal.arr [JSVal.num (JSNum.fin (301 / 10)), JSVal.num (JSNum.fin (312 / 10))])
        sampleClock :=
  have h : (JSNum.fin 5).FinitePositive ∧ (JSNum.fin 25).FinitePositive ∧
      (JSNum.fin 170).FinitePositive := by
    simp [JSNum.FinitePositive]
  ⟨h, last_click_wins freshApp _ _ _ _ Kind.running _ _ _ sampleClock h⟩

/-! ## The store invariant -/

theorem run_cons (s : App) (e : Event) (es : List Event) :
    run s (e :: es) = run (step s e) es := rfl

theorem run_nil (s : App) : run s [] = s := rfl

theorem step_mapClicked (s : App) (lat lng : JSNum) :
    step s (Event.mapClicked lat lng) = s.mapClick lat lng := rfl

theorem step_formCancelled (s : App) : step s Event.formCancelled = s._resetForm := rfl


theorem step_store (s : App) (e : Event) :
    (step s e).workouts = s.workouts ∧ e.accepted = none ∨
    ∃ sub coords, e.accepted = some sub ∧
      (step s e).workouts =
        s.workouts ++ [sub.kind.build sub.distance sub.duration sub.variant coords sub.clk] := by
  cases e with
  | mapClicked lat lng => exact Or.inl ⟨rfl, rfl⟩
  | formCancelled => exact Or.inl ⟨rfl, rfl⟩
  | formSubmitted kind d t v clk =>
    by_cases h : d.FinitePositive ∧ t.FinitePositive ∧ v.FinitePositive
    · refine Or.inr ⟨⟨kind, d, t, v, clk⟩, coordsVal s.markerPosition, ?_, ?_⟩
      · simp [Event.accepted, Submission.Valid, h]
      · rw [step_submit_valid s kind d t v clk h]; rfl
    · refine Or.inl ⟨?_, ?_⟩
      · rw [step_submit_invalid s kind d t v clk h]; rfl
      · simp only [Event.accepted, Submission.Valid]; rw [if_neg h]

theorem Event.accepted_valid (e : Event) (sub : Submission) (h : e.accepted = some sub) :
    sub.Valid := by
  cases e with
  | mapClicked lat lng => simp [Event.accepted] at h
  | formCancelled => simp [Event.accepted] at h
  | formSubmitted kind d t v clk =>
    simp only [Event.accepted] at h
    split at h
    · cases h; assumption
    · cases h

theorem run_store (events : List Event) :
    ∀ (s : App) (subs : List Submission), List.Forall₂ BuiltFrom s.workouts subs →
      List.Forall₂ BuiltFrom (run s events).workouts (subs ++ acceptedSubmissions events) := by
  induction events with
  | nil => intro s subs h; simpa [run, acceptedSubmissions] using h
  | cons e es ih =>
    intro s subs h
    have hrun : run s (e :: es) = run (step s e) es := rfl
    rw [hrun]
    rcases step_store s e with ⟨hw, hacc⟩ | ⟨sub, coords, hacc, hw⟩
    · have := ih (step s e) subs (by rw [hw]; exact h)
      simpa [acceptedSubmissions, List.filterMap_cons, hacc] using this
    · have hnew : List.Forall₂ BuiltFrom (step s e).workouts (subs ++ [sub]) := by
        rw [hw]
        exact List.rel_append h
          (List.Forall₂.cons ⟨Event.accepted_valid e sub hacc, coords, rfl⟩ List.Forall₂.nil)
      have := ih (step s e) (subs ++ [sub]) hnew
      simpa [acceptedSubmissions, List.filterMap_cons, hacc] using this

theorem builtFrom_of_mem {ws : List JSVal} {subs : List Submission}
    (h : List.Forall₂ BuiltFrom ws subs) {w : JSVal} (hw : w ∈ ws) :
    ∃ sub, BuiltFrom w sub := by
  induction h with
  | nil => cases hw
  | cons hab _ ih =>
    rcases List.mem_cons.1 hw with rfl | hmem
    · exact ⟨_, hab⟩
    · exact ih hmem

/-- C4: in every state reached from a state with an empty store by map clicks, form
submissions and cancels, the store lists, in order, one workout for each submission whose
three numbers were finite and strictly positive: the Running or Cycling object of the
submitted kind built from those numbers; so every entry has the submitted `type` and a
finite, strictly positive distance, duration and cadence or elevation. -/
theorem store_entries_are_valid_workouts (s : App) (events : List Event)
    (hempty : s.workouts = []) :
    List.Forall₂ BuiltFrom (run s events).workouts (acceptedSubmissions events) ∧
    ∀ w ∈ (run s events).workouts, ∃ (kind : Kind) (d t v : ℚ),
      0 < d ∧ 0 < t ∧ 0 < v ∧
      w.get "type" = JSVal.str kind.value ∧
      w.get "distance" = JSVal.num (JSNum.fin d) ∧
      w.get "duration" = JSVal.num (JSNum.fin t) ∧
      w.get (match kind with
        | Kind.running => "cadence"
        | Kind.cycling => "elevation") = JSVal.num (JSNum.fin v) := by
  have hall : List.Forall₂ BuiltFrom (run s events).workouts (acceptedSubmissions events) := by
    have := run_store events s [] (by rw [hempty]; exact List.Forall₂.nil)
    simpa using this
  refine ⟨hall, ?_⟩
  intro w hw
  obtain ⟨sub, hvalid, coords, hbuilt⟩ := builtFrom_of_mem hall hw
  obtain ⟨hd, ht, hv⟩ := hvalid
  rcases sub with ⟨kind, d, t, v, clk⟩
  cases d <;> cases t <;> cases v <;> simp only [JSNum.FinitePositive] at hd ht hv
  rename_i d t v
  refine ⟨kind, d, t, v, hd, ht, hv, ?_⟩
  subst hbuilt
  exact ⟨Kind.build_get_type _ _ _ _ _ _, Kind.build_get_numbers _ _ _ _ _ _⟩

theorem sampleSession_store :
    (run freshApp sampleSession).workouts =
      [Kind.running.build (JSNum.fin 5) (JSNum.fin 25) (JSNum.fin 170)
          (JSVal.arr [JSVal.num (JSNum.fin (301 / 10)), JSVal.num (JSNum.fin (312 / 10))])
          sampleClock,
        Kind.cycling.build (JSNum.fin 20) (JSNum.fin 60) (JSNum.fin 150)
          (JSVal.arr [JSVal.num (JSNum.fin 30), JSVal.num (JSNum.fin 31)])
          ⟨1730761260123, 1730761260123, 120⟩] := by
  have h0 : ¬ ((JSNum.fin (-3)).FinitePositive ∧ (JSNum.fin 25).FinitePositive ∧
      (JSNum.fin 170).FinitePositive) := by simp [JSNum.FinitePositive]
  have h1 : (JSNum.fin 5).FinitePositive ∧ (JSNum.fin 25).FinitePositive ∧
      (JSNum.fin 170).FinitePositive := by simp [JSNum.FinitePositive]
  have h2 : (JSNum.fin 20).FinitePositive ∧ (JSNum.fin 60).FinitePositive ∧
      (JSNum.fin 150).FinitePositive := by simp [JSNum.FinitePositive]
  rw [sampleSession, run_cons, step_mapClicked, run_cons, step_submit_invalid _ _ _ _ _ _ h0,
    run_cons, step_mapClicked, run_cons, step_submit_valid _ _ _ _ _ _ h1, run_cons,
    step_formCancelled, run_cons, step_mapClicked, run_cons,
    step_submit_valid _ _ _ _ _ _ h2, run_nil]
  rfl

theorem store_entries_are_valid_workouts_witness :
    freshApp.workouts = [] ∧
    List.Forall₂ BuiltFrom (run freshApp sampleSession).workouts
      (acceptedSubmissions sampleSession) ∧
    ∀ w ∈ (run freshApp sampleSession).workouts, ∃ (kind : Kind) (d t v : ℚ),
      0 < d ∧ 0 < t ∧ 0 < v ∧
      w.get "type" = JSVal.str kind.value ∧
      w.get "distance" = JSVal.num (JSNum.fin d) ∧
      w.get "duration" = JSVal.num (JSNum.fin t) ∧
      w.get (match kind with
        | Kind.running => "cadence"
        | Kind.cycling => "elevation") = JSVal.num (JSNum.fin v) :=
  ⟨rfl, store_entries_are_valid_workouts freshApp sampleSession rfl⟩

theorem successful_submission_appends_and_persists_witness :
    (goodSubmission.form.inputType = "running" ∨ goodSubmission.form.inputType = "cycling") ∧
    (goodSubmission.form.inputDistance.FinitePositive ∧
      goodSubmission.form.inputDuration.FinitePositive ∧
      goodSubmission.form.variant.FinitePositive) ∧
    (App._newWorkout goodSubmission sampleClock).app.workouts =
      goodSubmission.workouts ++ [goodSubmission.newEntry sampleClock] :=
  have hk : goodSubmission.form.inputType = "running" ∨
      goodSubmission.form.inputType = "cycling" := Or.inl rfl
  have hok : goodSubmission.form.inputDistance.FinitePositive ∧
      goodSubmission.form.inputDuration.FinitePositive ∧
      goodSubmission.form.variant.FinitePositive := by
    simp [goodSubmission, App.filled, Form.fill, Form.variant, JSNum.FinitePositive]
  ⟨hk, hok, (successful_submission_appends_and_persists goodSubmission sampleClock hk hok).1⟩

/-! ## Identifiers -/

theorem ofDigits_take_digits (b : Nat) (hb : 1 < b) (k : Nat) :
    ∀ n : Nat, Nat.ofDigits b ((Nat.digits b n).take k) = n % b ^ k := by
  induction k with
  | zero => intro n; simp [Nat.mod_one]
  | succ k ih =>
    intro n
    rcases Nat.eq_zero_or_pos n with rfl | hn
    · simp
    · rw [Nat.digits_def' hb hn, List.take_succ_cons, Nat.ofDigits_cons, ih, pow_succ',
        Nat.mod_mul]

theorem reverse_drop_reverse (l : List Nat) (k : Nat) :
    (l.reverse.drop (l.reverse.length - k)).reverse = l.take k := by
  rw [List.length_reverse, List.drop_reverse, List.reverse_reverse]
  rcases Nat.lt_or_ge l.length k with h | h
  · rw [List.take_of_length_le (by omega), List.take_of_length_le (by omega)]
  · congr 1; omega

theorem Workout.id_eq_mod (now : Nat) : Workout.id now = now % 1000000 := by
  simp only [Workout.id]
  rw [reverse_drop_reverse, ofDigits_take_digits 10 (by norm_num) 6 now]
  norm_num

theorem Kind.build_get_id (kind : Kind) (d t v : JSNum) (c : JSVal) (clk : Clock) :
    (kind.build d t v c clk).get "id" = JSVal.num (JSNum.fin (clk.now % 1000000 : Nat)) := by
  cases kind <;>
    simp [Kind.build, Running.constructor, Cycling.constructor, Workout.constructor,
      JSVal.get, List.lookup, Workout.id_eq_mod]

theorem Kind.build_not_nullish (kind : Kind) (d t v : JSNum) (c : JSVal) (clk : Clock) :
    (kind.build d t v c clk).isNullish = false := by
  cases kind <;> rfl

@[simp] theorem App.mapClick_workouts (s : App) (lat lng : JSNum) :
    (s.mapClick lat lng).workouts = s.workouts := rfl

@[simp] theorem App.mapClick_marker (s : App) (lat lng : JSNum) :
    (s.mapClick lat lng).markerPosition = some (lat, lng) := rfl

@[simp] theorem App.filled_workouts (s : App) (kind : Kind) (d t v : JSNum) :
    (s.filled kind d t v).workouts = s.workouts := rfl

@[simp] theorem App.filled_marker (s : App) (kind : Kind) (d t v : JSNum) :
    (s.filled kind d t v).markerPosition = s.markerPosition := rfl

@[simp] theorem App.resetForm_workouts (s : App) : s._resetForm.workouts = s.workouts := rfl

@[simp] theorem App.resetForm_marker (s : App) :
    s._resetForm.markerPosition = s.markerPosition := rfl

theorem App.goToWorkout_first (s : App) (w : JSVal) (ws : List JSVal) (id : JSNum)
    (hs : s.workouts = w :: ws) (hn : w.isNullish = false) (hnan : id ≠ JSNum.nan)
    (hid : w.get "id" = JSVal.num id) :
    (App._goToWorkout s (some id)).effects = [Effect.setView (w.get "coords")] := by
  have hnum : (JSVal.num id).isNum id = true := by
    cases id <;> simp [JSVal.isNum] at hnan ⊢
  simp [App._goToWorkout, hs, App.findById, hn, hid, hnum]

/-- C9: two workouts created 1000 seconds apart receive the same `id`, 200123, although
they lie at different coordinates, and `_goToWorkout` for that `id` moves the view to the
first of them. -/
theorem truncated_ids_collide :
    ∃ w1 w2, (run freshApp collidingSession).workouts = [w1, w2] ∧
      w1.get "id" = JSVal.num (JSNum.fin 200123) ∧
      w2.get "id" = JSVal.num (JSNum.fin 200123) ∧
      w1.get "coords" = JSVal.arr [JSVal.num (JSNum.fin 10), JSVal.num (JSNum.fin 20)] ∧
      w2.get "coords" = JSVal.arr [JSVal.num (JSNum.fin 30), JSVal.num (JSNum.fin 31)] ∧
      (App._goToWorkout (run freshApp collidingSession) (some (JSNum.fin 200123))).effects =
        [Effect.setView (JSVal.arr [JSVal.num (JSNum.fin 10), JSVal.num (JSNum.fin 20)])] := by
  have h1 : (JSNum.fin 5).FinitePositive ∧ (JSNum.fin 25).FinitePositive ∧
      (JSNum.fin 170).FinitePositive := by simp [JSNum.FinitePositive]
  have h2 : (JSNum.fin 20).FinitePositive ∧ (JSNum.fin 60).FinitePositive ∧
      (JSNum.fin 150).FinitePositive := by simp [JSNum.FinitePositive]
  have hrun : (run freshApp collidingSession).workouts =
      [Kind.running.build (JSNum.fin 5) (JSNum.fin 25) (JSNum.fin 170)
          (JSVal.arr [JSVal.num (JSNum.fin 10), JSVal.num (JSNum.fin 20)]) sampleClock,
        Kind.cycling.build (JSNum.fin 20) (JSNum.fin 60) (JSNum.fin 150)
          (JSVal.arr [JSVal.num (JSNum.fin 30), JSVal.num (JSNum.fin 31)]) laterClock] := by
    rw [collidingSession, run_cons, step_mapClicked, run_cons, step_submit_valid _ _ _ _ _ _ h1,
      run_cons, step_mapClicked, run_cons, step_submit_valid _ _ _ _ _ _ h2, run_nil]
    simp [App.pushed_workouts, App.pushed_marker, coordsVal, freshApp]
  have hid1 : (Kind.running.build (JSNum.fin 5) (JSNum.fin 25) (JSNum.fin 170)
      (JSVal.arr [JSVal.num (JSNum.fin 10), JSVal.num (JSNum.fin 20)]) sampleClock).get "id"
      = JSVal.num (JSNum.fin 200123) := by
    rw [Kind.build_get_id]; norm_num [sampleClock]
  have hid2 : (Kind.cycling.build (JSNum.fin 20) (JSNum.fin 60) (JSNum.fin 150)
      (JSVal.arr [JSVal.num (JSNum.fin 30), JSVal.num (JSNum.fin 31)]) laterClock).get "id"
      = JSVal.num (JSNum.fin 200123) := by
    rw [Kind.build_get_id]; norm_num [laterClock]
  refine ⟨_, _, hrun, hid1, hid2, Kind.build_get_coords _ _ _ _ _ _,
    Kind.build_get_coords _ _ _ _ _ _, ?_⟩
  rw [App.goToWorkout_first _ _ _ _ hrun (Kind.build_not_nullish _ _ _ _ _ _) (by simp) hid1,
    Kind.build_get_coords]

/-! ## Submission without a placement -/

/-- C5, counterexample: with no click on the map before it, a submission of distance 5,
duration 25 and cadence 170 raises no alert and puts a workout with `coords` undefined
into the store. -/
theorem submission_without_click_is_accepted :
    noClickSubmission.markerPosition = none ∧
    ∃ w, (App._newWorkout noClickSubmission sampleClock).app.workouts = [w] ∧
      w.get "coords" = JSVal.undefined ∧
      w.get "type" = JSVal.str "running" ∧
      (App._newWorkout noClickSubmission sampleClock).effects =
        [App.markerOf w, Effect.listItem w] := by
  have hk : noClickSubmission.form.inputType = "running" ∨
      noClickSubmission.form.inputType = "cycling" := Or.inl rfl
  have hc : App._checkNumbers [noClickSubmission.form.inputDistance,
      noClickSubmission.form.inputDuration, noClickSubmission.form.variant] = true := by
    rw [App.checkNumbers_three]
    simp [noClickSubmission, App.filled, Form.fill, Form.variant, JSNum.FinitePositive]
  refine ⟨rfl, noClickSubmission.newEntry sampleClock, ?_, ?_, ?_, ?_⟩
  · rw [App.newWorkout_accepted _ _ hk hc]; rfl
  · rw [noClickSubmission, App.filled_newEntry, Kind.build_get_coords]; rfl
  · rw [noClickSubmission, App.filled_newEntry, Kind.build_get_type]; rfl
  · rw [App.newWorkout_accepted _ _ hk hc]

/-- C5, amended: when no click has set `#markerPosition` and the selector is on running
or cycling, `_newWorkout` runs the numeric check only.  If one of the three numbers is at
most zero, `NaN` or infinite, the submission is rejected with the alert about positive
numbers and the store is unchanged; if all three are finite and strictly positive, a
workout whose `coords` is undefined is appended to the store and persisted. -/
theorem submission_without_click (s : App) (clk : Clock)
    (hnone : s.markerPosition = none)
    (hk : s.form.inputType = "running" ∨ s.form.inputType = "cycling") :
    ((s.form.inputDistance.Invalid ∨ s.form.inputDuration.Invalid ∨ s.form.variant.Invalid) →
      App._newWorkout s clk =
        ⟨s._resetForm, [Effect.alert "Input fields must contain positive Numbers !!"], none⟩) ∧
    ((s.form.inputDistance.FinitePositive ∧ s.form.inputDuration.FinitePositive ∧
        s.form.variant.FinitePositive) →
      (App._newWorkout s clk).app.workouts = s.workouts ++ [s.newEntry clk] ∧
      (s.newEntry clk).get "coords" = JSVal.undefined ∧
      (s.newEntry clk).isNullish = false ∧
      (App._newWorkout s clk).app.localStorage = some (StoredString.jsonText
        (Json.arr (JSON.serializeItems (s.workouts ++ [s.newEntry clk]))))) := by
  constructor
  · intro hbad
    exact App.newWorkout_rejected s clk hk (App.checkNumbers_invalid _ _ _ hbad)
  · intro hok
    rw [App.newWorkout_accepted s clk hk ((App.checkNumbers_three _ _ _).2 hok)]
    refine ⟨rfl, ?_, ?_, App.pushed_storage s _⟩
    · simp only [App.newEntry, hnone, coordsVal]
      split <;>
        simp [Running.constructor, Cycling.constructor, Workout.constructor, JSVal.get,
          List.lookup]
    · simp only [App.newEntry]
      split <;> rfl

theorem submission_without_click_witness :
    noClickSubmission.markerPosition = none ∧
    (noClickSubmission.form.inputType = "running" ∨
      noClickSubmission.form.inputType = "cycling") ∧
    (noClickSubmission.form.inputDistance.FinitePositive ∧
      noClickSubmission.form.inputDuration.FinitePositive ∧
      noClickSubmission.form.variant.FinitePositive) ∧
    (App._newWorkout noClickSubmission sampleClock).app.workouts =
      noClickSubmission.workouts ++ [noClickSubmission.newEntry sampleClock] ∧
    (noClickSubmission.newEntry sampleClock).get "coords" = JSVal.undefined :=
  have hk : noClickSubmission.form.inputType = "running" ∨
      noClickSubmission.form.inputType = "cycling" := Or.inl rfl
  have hok : noClickSubmission.form.inputDistance.FinitePositive ∧
      noClickSubmission.form.inputDuration.FinitePositive ∧
      noClickSubmission.form.variant.FinitePositive := by
    simp [noClickSubmission, App.filled, Form.fill, Form.variant, JSNum.FinitePositive]
  have t := (submission_without_click noClickSubmission sampleClock rfl hk).2 hok
  ⟨rfl, hk, hok, t.1, t.2.1⟩

/-! ## The placement after a submission or a cancel -/

theorem App.resetForm_cleared (s : App) : s._resetForm.form.Cleared :=
  ⟨rfl, rfl, rfl, rfl, rfl⟩

theorem App.pushed_cleared (s : App) (w : JSVal) : (s.pushed w).form.Cleared :=
  ⟨rfl, rfl, rfl, rfl, rfl⟩

theorem step_not_click (s : App) (e : Event) (he : e.isMapClick = false) :
    (step s e).form.Cleared ∧ (step s e).markerPosition = s.markerPosition := by
  cases e with
  | mapClicked lat lng => simp [Event.isMapClick] at he
  | formCancelled => exact ⟨App.resetForm_cleared s, rfl⟩
  | formSubmitted kind d t v clk =>
    by_cases h : d.FinitePositive ∧ t.FinitePositive ∧ v.FinitePositive
    · rw [step_submit_valid s kind d t v clk h]
      exact ⟨App.pushed_cleared _ _, rfl⟩
    · rw [step_submit_invalid s kind d t v clk h]
      exact ⟨App.resetForm_cleared _, rfl⟩

/-- C6, counterexample: after a click at (10, 20) and a successful submission, a second
valid submission with no click in between adds a second workout at (10, 20). -/
theorem second_submission_reuses_placement :
    ∃ w1 w2, (run freshApp doubleSubmitSession).workouts = [w1, w2] ∧
      w1.get "coords" = JSVal.arr [JSVal.num (JSNum.fin 10), JSVal.num (JSNum.fin 20)] ∧
      w2.get "coords" = JSVal.arr [JSVal.num (JSNum.fin 10), JSVal.num (JSNum.fin 20)] ∧
      w2.get "type" = JSVal.str "cycling" ∧
      (run freshApp doubleSubmitSession).markerPosition =
        some (JSNum.fin 10, JSNum.fin 20) := by
  have h1 : (JSNum.fin 5).FinitePositive ∧ (JSNum.fin 25).FinitePositive ∧
      (JSNum.fin 170).FinitePositive := by simp [JSNum.FinitePositive]
  have h2 : (JSNum.fin 20).FinitePositive ∧ (JSNum.fin 60).FinitePositive ∧
      (JSNum.fin 150).FinitePositive := by simp [JSNum.FinitePositive]
  have hrun : run freshApp doubleSubmitSession =
      ((((freshApp.mapClick (JSNum.fin 10) (JSNum.fin 20)).filled Kind.running (JSNum.fin 5)
        (JSNum.fin 25) (JSNum.fin 170)).pushed
          (Kind.running.build (JSNum.fin 5) (JSNum.fin 25) (JSNum.fin 170)
            (JSVal.arr [JSVal.num (JSNum.fin 10), JSVal.num (JSNum.fin 20)]) sampleClock)).filled
        Kind.cycling (JSNum.fin 20) (JSNum.fin 60) (JSNum.fin 150)).pushed
          (Kind.cycling.build (JSNum.fin 20) (JSNum.fin 60) (JSNum.fin 150)
            (JSVal.arr [JSVal.num (JSNum.fin 10), JSVal.num (JSNum.fin 20)]) laterClock) := by
    rw [doubleSubmitSession, run_cons, step_mapClicked, run_cons,
      step_submit_valid _ _ _ _ _ _ h1, run_cons, step_submit_valid _ _ _ _ _ _ h2, run_nil]
    rfl
  rw [hrun]
  exact ⟨_, _, rfl, Kind.build_get_coords _ _ _ _ _ _, Kind.build_get_coords _ _ _ _ _ _,
    Kind.build_get_type _ _ _ _ _ _, rfl⟩

/-- C6, amended: after every form submission, successful or rejected, and after every
cancel, the form is hidden and its numeric inputs are empty, and `#markerPosition` is
what it was before: a following submission with finite, strictly positive numbers and no
click in between appends a workout whose `coords` are those of the earlier click. -/
theorem placement_kept_after_submit_and_cancel (s : App) (e : Event)
    (he : e.isMapClick = false) :
    (step s e).form.Cleared ∧
    (step s e).markerPosition = s.markerPosition ∧
    ∀ (kind : Kind) (d t v : JSNum) (clk : Clock),
      d.FinitePositive ∧ t.FinitePositive ∧ v.FinitePositive →
      (step (step s e) (Event.formSubmitted kind d t v clk)).workouts =
          (step s e).workouts ++ [kind.build d t v (coordsVal s.markerPosition) clk] ∧
        (kind.build d t v (coordsVal s.markerPosition) clk).get "coords" =
          coordsVal s.markerPosition := by
  obtain ⟨hclr, hm⟩ := step_not_click s e he
  refine ⟨hclr, hm, ?_⟩
  intro kind d t v clk hok
  rw [step_submit_valid _ _ _ _ _ _ hok, hm]
  exact ⟨rfl, Kind.build_get_coords _ _ _ _ _ _⟩

theorem placement_kept_after_submit_and_cancel_witness :
    Event.formCancelled.isMapClick = false ∧
    (step (freshApp.mapClick (JSNum.fin 10) (JSNum.fin 20)) Event.formCancelled).markerPosition
      = some (JSNum.fin 10, JSNum.fin 20) :=
  ⟨rfl, (placement_kept_after_submit_and_cancel
    (freshApp.mapClick (JSNum.fin 10) (JSNum.fin 20)) Event.formCancelled rfl).2.1⟩

/-! ## Serialize and restore -/

theorem lookup_congr_except (key k0 : String) (x y : JSVal) (h : key ≠ k0) :
    ∀ (l1 l2 : List (String × JSVal)),
      List.lookup key (l1 ++ (k0, x) :: l2) = List.lookup key (l1 ++ (k0, y) :: l2) := by
  intro l1 l2
  induction l1 with
  | nil =>
    have : (key == k0) = false := by simpa using h
    simp [List.lookup, this]
  | cons p l1 ih =>
    obtain ⟨k, v⟩ := p
    simp only [List.cons_append, List.lookup]
    split <;> simp [ih]

theorem lookup_drop_undefined (key k0 : String) (l2 : List (String × JSVal))
    (h0 : List.lookup k0 l2 = none) :
    ∀ l1 : List (String × JSVal),
      (List.lookup key (l1 ++ (k0, JSVal.undefined) :: l2)).getD JSVal.undefined =
        (List.lookup key (l1 ++ l2)).getD JSVal.undefined := by
  intro l1
  induction l1 with
  | nil =>
    simp only [List.nil_append, List.lookup]
    split
    · next heq =>
      have hk : key = k0 := by simpa using heq
      rw [hk, h0]; rfl
    · rfl
  | cons p l1 ih =>
    obtain ⟨k, v⟩ := p
    simp only [List.cons_append, List.lookup]
    split
    · rfl
    · exact ih

theorem created_image (w : JSVal) (h : Created w) :
    RestoredAs w (persistedImage w) ∧ (persistedImage w).isNullish = false ∧
      persistedImage (persistedImage w) = persistedImage w := by
  obtain ⟨kind, d, t, v, pos, clk, _, _, _, hfin, rfl⟩ := h
  obtain ⟨p, hp⟩ := JSNum.eq_fin_of_isFinite _ hfin
  rcases kind with _ | _ <;> simp only [Kind.metric] at hp <;> rcases pos with _ | ⟨a, b⟩ <;>
    simp only [persistedImage, Kind.build, Running.constructor, Cycling.constructor,
      Workout.constructor, coordsVal, Option.map, JSON.serialize, JSON.serializeProps,
      JSON.serializeItems, JSON.revive, JSON.reviveMembers, JSON.reviveItems, JSVal.setProp,
      hp, List.cons_append, List.nil_append, Option.getD_some, String.reduceEq, if_false,
      JSVal.get, RestoredAs, JSVal.isNullish, and_true, true_and]
  · refine ⟨fun key hk => ?_, Or.inl ⟨_, rfl, rfl⟩⟩
    refine Eq.trans ?_
      (lookup_drop_undefined key "coords" _ (by simp [List.lookup]) [_, _, _]).symm
    exact congrArg (fun o => Option.getD o JSVal.undefined)
      (lookup_congr_except key "date" _ _ hk [_, _, _] _)
  · exact ⟨fun key hk => congrArg (fun o => Option.getD o JSVal.undefined)
      (lookup_congr_except key "date" _ _ hk [_, _, _, _] _), Or.inl ⟨_, rfl, rfl⟩⟩
  · refine ⟨fun key hk => ?_, Or.inl ⟨_, rfl, rfl⟩⟩
    refine Eq.trans ?_
      (lookup_drop_undefined key "coords" _ (by simp [List.lookup]) [_, _, _]).symm
    exact congrArg (fun o => Option.getD o JSVal.undefined)
      (lookup_congr_except key "date" _ _ hk [_, _, _] _)
  · exact ⟨fun key hk => congrArg (fun o => Option.getD o JSVal.undefined)
      (lookup_congr_except key "date" _ _ hk [_, _, _, _] _), Or.inl ⟨_, rfl, rfl⟩⟩

theorem reviveItems_serializeItems (ws : List JSVal) :
    JSON.reviveItems (JSON.serializeItems ws) = ws.map persistedImage := by
  induction ws with
  | nil => simp [JSON.serializeItems, JSON.reviveItems]
  | cons w ws ih => simp [JSON.serializeItems, JSON.reviveItems, ih, persistedImage]

theorem App.restore_after_set (s : App) :
    App._restoreLocalStorage (App._setLocalStorage s) =
      ⟨{ App._setLocalStorage s with workouts := s.workouts.map persistedImage },
        (App.renderAll (s.workouts.map persistedImage)).1,
        (App.renderAll (s.workouts.map persistedImage)).2⟩ := by
  simp [App._restoreLocalStorage, App._setLocalStorage, JSON.stringify, JSON.serialize,
    App.storedText, JSON.parse, JSON.revive, JSVal.truthy, reviveItems_serializeItems]

theorem App.renders_congr (r w : JSVal) (hn : r.isNullish = w.isNullish)
    (hk : ∀ key : String, key ≠ "date" → r.get key = w.get key) :
    App.renders r = App.renders w := by
  simp only [App.renders, App._renderInList, hn, hk "type" (by decide),
    hk "pace" (by decide), hk "speed" (by decide)]
  split_ifs <;>
    first
    | rfl
    | (cases w.get "pace" <;> rfl)
    | (cases w.get "speed" <;> rfl)

theorem App.renderAll_thrown (ws : List JSVal) :
    (App.renderAll ws).2 = none ↔ ∀ w ∈ ws, App.renders w = true := by
  induction ws with
  | nil => simp [App.renderAll]
  | cons w ws ih =>
    simp only [App.renderAll, App.renders, List.mem_cons, forall_eq_or_imp]
    cases h : App._renderInList w with
    | error e => simp
    | ok l => simpa using ih

theorem created_renders (w : JSVal) (h : Created w) :
    w.isNullish = false ∧ App.renders w = true := by
  obtain ⟨kind, d, t, v, pos, clk, _, _, _, _, rfl⟩ := h
  refine ⟨Kind.build_not_nullish _ _ _ _ _ _, ?_⟩
  cases kind
  · simp [App.renders, Kind.build, (running_render _ _ _ _ _).2]
  · simp [App.renders, Kind.build, (cycling_render _ _ _ _ _).2]

theorem persistable_image (w : JSVal) (h : Persistable w) :
    RestoredAs w (persistedImage w) ∧ App.renders (persistedImage w) = true := by
  rcases h with h | ⟨w0, h0, rfl⟩
  · obtain ⟨hr, hn, _⟩ := created_image w h
    obtain ⟨hwn, hw⟩ := created_renders w h
    exact ⟨hr, by rw [App.renders_congr _ w (by rw [hn, hwn]) hr.1, hw]⟩
  · obtain ⟨hr, hn, hidem⟩ := created_image w0 h0
    obtain ⟨hwn, hw⟩ := created_renders w0 h0
    rw [hidem]
    refine ⟨⟨fun _ _ => rfl, Or.inr ?_⟩,
      by rw [App.renders_congr _ w0 (by rw [hn, hwn]) hr.1, hw]⟩
    rcases hr.2 with ⟨t, _, ht⟩ | ⟨text, _, ht⟩
    · exact ⟨_, ht, ht⟩
    · exact ⟨_, ht, ht⟩

theorem sample_iso_string : Date.toISOString 1730761200123 = "2024-11-04T23:00:00.123Z" := by
  decide

theorem sample_popup_content :
    Workout._popupContent "running" 1730761200123 120 = "🏃‍♂️ running on November 5" := by
  decide

/-- C3, counterexample: for the store that holds one workout just created, serializing
and restoring gives one entry whose `date` is a string, where the original `date` is a
`Date` object; the restored entry differs from the original. -/
theorem roundtrip_changes_date :
    ∃ w r, storedOnce.workouts = [w] ∧
      (App._restoreLocalStorage (App._setLocalStorage storedOnce)).app.workouts = [r] ∧
      w.get "date" = JSVal.date 1730761200123 ∧
      r.get "date" = JSVal.str "2024-11-04T23:00:00.123Z" ∧
      r ≠ w := by
  have hc : Created (goodSubmission.newEntry sampleClock) :=
    ⟨Kind.running, 5, 25, 170, some (301 / 10, 312 / 10), sampleClock,
      by norm_num, by norm_num, by norm_num,
      by rw [Kind.metric, JSNum.div_sample]; rfl, rfl⟩
  have hw : (goodSubmission.newEntry sampleClock).get "date" = JSVal.date 1730761200123 := rfl
  obtain ⟨⟨_, hdate⟩, _, _⟩ := created_image _ hc
  have hr : (persistedImage (goodSubmission.newEntry sampleClock)).get "date" =
      JSVal.str "2024-11-04T23:00:00.123Z" := by
    rcases hdate with ⟨t, h1, h2⟩ | ⟨text, h1, _⟩
    · rw [hw] at h1
      cases h1
      rw [h2, sample_iso_string]
    · rw [hw] at h1
      cases h1
  refine ⟨goodSubmission.newEntry sampleClock,
    persistedImage (goodSubmission.newEntry sampleClock), rfl, ?_, hw, hr, ?_⟩
  · rw [App.restore_after_set]; rfl
  · intro heq
    rw [heq, hw] at hr
    cases hr

theorem infinite_pace_image (d t v a b : ℚ) (clk : Clock)
    (h : (JSNum.fin t).div (JSNum.fin d) = JSNum.posInf) :
    (persistedImage (Running.constructor (JSNum.fin d) (JSNum.fin t)
      (JSVal.arr [JSVal.num (JSNum.fin a), JSVal.num (JSNum.fin b)]) (JSNum.fin v) clk)).get
        "pace" = JSVal.null ∧
    App._renderInList (persistedImage (Running.constructor (JSNum.fin d) (JSNum.fin t)
      (JSVal.arr [JSVal.num (JSNum.fin a), JSVal.num (JSNum.fin b)]) (JSNum.fin v) clk))
        = Except.error JSError.TypeError := by
  have himg : persistedImage (Running.constructor (JSNum.fin d) (JSNum.fin t)
      (JSVal.arr [JSVal.num (JSNum.fin a), JSVal.num (JSNum.fin b)]) (JSNum.fin v) clk) =
      JSVal.obj [("id", JSVal.num (JSNum.fin (Workout.id clk.now))),
        ("distance", JSVal.num (JSNum.fin d)),
        ("duration", JSVal.num (JSNum.fin t)),
        ("coords", JSVal.arr [JSVal.num (JSNum.fin a), JSVal.num (JSNum.fin b)]),
        ("date", JSVal.str (Date.toISOString clk.dateTime)),
        ("type", JSVal.str "running"),
        ("cadence", JSVal.num (JSNum.fin v)),
        ("pace", JSVal.null),
        ("popupContent", JSVal.str (Workout._popupContent "running" clk.dateTime clk.tz))] := by
    simp only [persistedImage, Running.constructor, Workout.constructor, JSON.serialize,
      JSON.serializeProps, JSON.serializeItems, JSON.revive, JSON.reviveMembers,
      JSON.reviveItems, JSVal.setProp, h, List.cons_append, List.nil_append,
      Option.getD_some, String.reduceEq, if_false]
  rw [himg]
  constructor
  · simp [JSVal.get, List.lookup]
  · simp [App._renderInList, JSVal.isNullish, JSVal.get, List.lookup, JSVal.isStr]

theorem App.restore_after_set_thrown (s : App) :
    (App._restoreLocalStorage (App._setLocalStorage s)).thrown =
      (App.renderAll (s.workouts.map persistedImage)).2 := by
  rw [App.restore_after_set]

theorem App.restore_after_set_workouts (s : App) :
    (App._restoreLocalStorage (App._setLocalStorage s)).app.workouts =
      s.workouts.map persistedImage := by
  rw [App.restore_after_set]

theorem App.renderAll_single_error (w : JSVal) (e : JSError)
    (h : App._renderInList w = Except.error e) : App.renderAll [w] = ([], some e) := by
  simp only [App.renderAll, h]

/-- A workout whose pace overflowed to `Infinity` is outside `Created`: its `pace` is
written as `null`, comes back as `null`, and `_restoreLocalStorage` ends with the
`TypeError` of `toFixed` on it. -/
theorem roundtrip_loses_infinite_pace :
    ∃ w r, storedSteep.workouts = [w] ∧
      (App._restoreLocalStorage (App._setLocalStorage storedSteep)).app.workouts = [r] ∧
      w.get "pace" = JSVal.num JSNum.posInf ∧
      r.get "pace" = JSVal.null ∧
      (App._restoreLocalStorage (App._setLocalStorage storedSteep)).thrown
        = some JSError.TypeError := by
  have hw : storedSteep.workouts =
      [Running.constructor (JSNum.fin (1 / 2 ^ 600)) (JSNum.fin (2 ^ 600))
        (JSVal.arr [JSVal.num (JSNum.fin 10), JSVal.num (JSNum.fin 20)]) (JSNum.fin 170)
        sampleClock] := by
    rw [storedSteep, App.pushed_workouts, steepSubmission, App.filled_newEntry]
    simp [Kind.build, coordsVal, freshApp]
  obtain ⟨hpace, hrender⟩ := infinite_pace_image (1 / 2 ^ 600) (2 ^ 600) 170 10 20 sampleClock
    JSNum.div_overflow
  refine ⟨_, persistedImage (Running.constructor (JSNum.fin (1 / 2 ^ 600))
    (JSNum.fin (2 ^ 600)) (JSVal.arr [JSVal.num (JSNum.fin 10), JSVal.num (JSNum.fin 20)])
    (JSNum.fin 170) sampleClock), hw, ?_, (pace_overflows _ _).2, hpace, ?_⟩
  · rw [App.restore_after_set_workouts, hw, List.map_cons, List.map_nil]
  · rw [App.restore_after_set_thrown, hw, List.map_cons, List.map_nil,
      App.renderAll_single_error _ _ hrender]

/-- C3, amended: for every store whose entries are workouts of this program (created in
this session with a finite pace or speed, or restored from what an earlier session
persisted for such a workout), `_setLocalStorage` followed by `_restoreLocalStorage`
completes and yields a sequence with the same number of
entries in the same order, each entry reading like the original on every property
(`id`, `distance`, `duration`, `coords`, `type`, `popupContent`, cadence or elevation, pace
or speed) except `date`: the `date` of a restored entry is the ISO string of the original
`Date` object, or the string the original already held. -/
theorem roundtrip_preserves_all_but_date (s : App)
    (h : ∀ w ∈ s.workouts, Persistable w) :
    (App._restoreLocalStorage (App._setLocalStorage s)).thrown = none ∧
    List.Forall₂ RestoredAs s.workouts
      (App._restoreLocalStorage (App._setLocalStorage s)).app.workouts := by
  rw [App.restore_after_set]
  constructor
  · rw [App.renderAll_thrown]
    intro r hr
    obtain ⟨w, hw, rfl⟩ := List.mem_map.1 hr
    exact (persistable_image w (h w hw)).2
  · show List.Forall₂ RestoredAs s.workouts (s.workouts.map persistedImage)
    rw [List.forall₂_map_right_iff, List.forall₂_same]
    intro w hw
    exact (persistable_image w (h w hw)).1

theorem roundtrip_preserves_all_but_date_witness :
    (∀ w ∈ storedOnce.workouts, Persistable w) ∧
    (App._restoreLocalStorage (App._setLocalStorage storedOnce)).thrown = none ∧
    List.Forall₂ RestoredAs storedOnce.workouts
      (App._restoreLocalStorage (App._setLocalStorage storedOnce)).app.workouts :=
  have h : ∀ w ∈ storedOnce.workouts, Persistable w := by
    intro w hw
    have hw1 : w = goodSubmission.newEntry sampleClock := by
      simpa [storedOnce, App.pushed_workouts, goodSubmission, freshApp] using hw
    subst hw1
    exact Or.inl ⟨Kind.running, 5, 25, 170, some (301 / 10, 312 / 10), sampleClock,
      by norm_num, by norm_num, by norm_num,
      by rw [Kind.metric, JSNum.div_sample]; rfl, rfl⟩
  ⟨h, roundtrip_preserves_all_but_date storedOnce h⟩

/-! ## Restore at start-up -/

/-- C8, counterexample: when the stored text is not JSON, `new App()` ends with the
`SyntaxError` of `JSON.parse`; and when the stored text is `[{}]`, which parses, it ends
with a `TypeError` from `_renderInList`. -/
theorem restore_surfaces_errors :
    (App.constructor (some (StoredString.otherText "[1, 2")) sampleForm).thrown
      = some JSError.SyntaxError ∧
    (App.constructor (some (StoredString.jsonText (Json.arr [Json.obj []]))) sampleForm).thrown
      = some JSError.TypeError := by
  constructor
  · rfl
  · rfl

/-- C8, amended: starting from the empty store, `_restoreLocalStorage` does the
following.  When the value is absent, or parses to a falsy value, the store stays empty
and no error is surfaced.  When the text cannot be parsed, the `SyntaxError` of
`JSON.parse` is thrown out of the method with the store still empty.  When the text parses
to a sequence, the store is set to that sequence, and no error is surfaced exactly when
`_renderInList` completes on every entry.  When it parses to a truthy value that is not a
sequence, a `TypeError` is thrown. -/
theorem restore_outcomes (s : App) (hs : s.workouts = []) :
    (s.localStorage = none →
      (App._restoreLocalStorage s).thrown = none ∧
      (App._restoreLocalStorage s).app.workouts = []) ∧
    (∀ text, s.localStorage = some (StoredString.otherText text) →
      (App._restoreLocalStorage s).thrown = some JSError.SyntaxError ∧
      (App._restoreLocalStorage s).app.workouts = []) ∧
    (∀ doc items, s.localStorage = some (StoredString.jsonText doc) →
      JSON.revive doc = JSVal.arr items →
      (App._restoreLocalStorage s).app.workouts = items ∧
      ((App._restoreLocalStorage s).thrown = none ↔ ∀ w ∈ items, App.renders w = true)) ∧
    (∀ doc, s.localStorage = some (StoredString.jsonText doc) →
      (JSON.revive doc).truthy = false →
      (App._restoreLocalStorage s).thrown = none ∧
      (App._restoreLocalStorage s).app.workouts = []) ∧
    (∀ doc, s.localStorage = some (StoredString.jsonText doc) →
      (JSON.revive doc).truthy = true → (∀ items, JSON.revive doc ≠ JSVal.arr items) →
      (App._restoreLocalStorage s).thrown = some JSError.TypeError) := by
  refine ⟨?_, ?_, ?_, ?_, ?_⟩
  · intro h
    simp [App._restoreLocalStorage, h, JSON.parse, JSVal.truthy, hs, App.renderAll]
  · intro text h
    simp [App._restoreLocalStorage, h, JSON.parse, hs]
  · intro doc items h hrev
    simp only [App._restoreLocalStorage, h, JSON.parse, hrev, JSVal.truthy, if_true]
    exact ⟨trivial, App.renderAll_thrown items⟩
  · intro doc h hfalse
    simp [App._restoreLocalStorage, h, JSON.parse, hfalse, hs, App.renderAll]
  · intro doc h htrue hnot
    simp only [App._restoreLocalStorage, h, JSON.parse, htrue, if_true]

theorem restore_outcomes_witness :
    freshApp.workouts = [] ∧ freshApp.localStorage = none ∧
    (App._restoreLocalStorage freshApp).thrown = none ∧
    (App._restoreLocalStorage freshApp).app.workouts = [] :=
  ⟨rfl, rfl, (restore_outcomes freshApp rfl).1 rfl⟩

end Mapty
